import Mathlib

/-!
Shallow embedding of the `ottotom` OpenMetrics text converter and exporter
(`src/convert.rs`, `src/convert/unit.rs`, `src/format.rs`, `src/exporter.rs`).

Modelling conventions:
* Rust `String`/`&str` values are Lean `String`s; per-character scans are
  written over `List Char` (`String.data`).  The three escapable characters
  are ASCII, so Rust's byte-level scan and a char-level scan agree on UTF-8.
* `u64` is modelled as `Nat` (with an explicit `% 2^64` wherever the
  source performs arithmetic that can wrap, namely the histogram bucket
  accumulator), `i64` as `Int`.  `f64` payload values are
  abstracted by their formatter output (no claim depends on float arithmetic
  or on the ryu algorithm itself).
* Panics (`assert_eq!`, `unimplemented!`, `expect`) are modelled as `none`:
  every writer that can panic returns `Option`.
* The output sink used by the library is a Rust `String`, whose `fmt::Write`
  impl never fails, so the `Result` plumbing of the writers collapses; sink
  failure is modelled abstractly at the exporter level (see `RenderOutcome`).
* Cargo features `otel_scope_info`, `experimental-histogram-min-max` and
  `tracing` are modelled in their default (disabled) state: no `target_info`
  or `otel_scope_info` lines, `make_scope_name_attrs` returns no attribute,
  no min/max histogram lines.
-/

namespace Ottotom

/-! ## Name sanitization (`write_sanitized_name`, convert.rs lines 517-539) -/

/-- One step of `write_sanitized_name`'s left-to-right scan over the name's
characters.  `previous_was_underscore` is the single boolean of lookback the
source keeps: allowed characters (`a-z A-Z 0-9 :`, per
`c.is_ascii_alphanumeric() || c == ':'`) are emitted unchanged and clear the
flag, anything else emits `_` only when the flag is clear. -/
def sanitize_loop (previous_was_underscore : Bool) : List Char → List Char
  | [] => []
  | c :: cs =>
    if c.isAlphanum ∨ c = ':' then c :: sanitize_loop false cs
    else if previous_was_underscore then sanitize_loop true cs
    else '_' :: sanitize_loop true cs

/-- `write_sanitized_name` of convert.rs on the character list: a leading
ASCII digit forces a leading `_` (with the underscore flag already set), then
the single scan runs over all characters. -/
def write_sanitized_name_chars (name : List Char) : List Char :=
  if name.head?.any Char.isDigit then '_' :: sanitize_loop true name
  else sanitize_loop false name

/-- String-level wrapper for `write_sanitized_name`. -/
def write_sanitized_name (name : String) : String :=
  String.mk (write_sanitized_name_chars name.data)

/-- A character the sanitizer may emit: ASCII alphanumeric, `:` or `_`. -/
def legal_name_char (c : Char) : Prop := c.isAlphanum ∨ c = ':' ∨ c = '_'

instance (c : Char) : Decidable (legal_name_char c) := by
  unfold legal_name_char; infer_instance

/-! ## Value escaping (`write_escaped`, convert.rs lines 488-513)

The source scans with `next_escape_char` (memchr-style) to the next of the
three escapable bytes, copying clean chunks wholesale; its output is exactly
the character-by-character rewrite below. -/

/-- The rewrite `write_escaped` applies to one character: backslash and quote
are backslash-escaped, newline becomes the two characters backslash-`n`,
everything else passes through unchanged. -/
def escape_char (c : Char) : List Char :=
  if c = '\\' then ['\\', '\\']
  else if c = '"' then ['\\', '"']
  else if c = '\n' then ['\\', 'n']
  else [c]

/-- `write_escaped` of convert.rs on the character list. -/
def write_escaped_chars : List Char → List Char
  | [] => []
  | c :: cs => escape_char c ++ write_escaped_chars cs

/-- String-level wrapper for `write_escaped`. -/
def write_escaped (value : String) : String :=
  String.mk (write_escaped_chars value.data)

/-- Modelled from the spec: the inverse unescaping scan (the source defines
no unescaper; the spec's round-trip sentence does).  An escape sequence
`\\`, `\"` or `\n` is folded back to its original character, anything else
is copied. -/
def unescape_chars : List Char → List Char
  | [] => []
  | c :: cs =>
    if c = '\\' then
      match cs with
      | [] => ['\\']
      | d :: rest =>
        if d = '\\' then '\\' :: unescape_chars rest
        else if d = '"' then '"' :: unescape_chars rest
        else if d = 'n' then '\n' :: unescape_chars rest
        else c :: unescape_chars (d :: rest)
    else c :: unescape_chars cs

/-- String-level wrapper for `unescape_chars`. -/
def unescape (value : String) : String :=
  String.mk (unescape_chars value.data)

/-- Modelled from the spec: re-scanning the escaped value for raw
(unescaped) backslash, quote, or newline bytes.  A backslash followed by an
escape tail is skipped as one escape sequence; any other backslash, and any
bare quote or newline, counts as raw. -/
def count_raw_specials : List Char → Nat
  | [] => 0
  | c :: cs =>
    if c = '\\' then
      match cs with
      | [] => 1
      | d :: rest =>
        if d = '\\' ∨ d = '"' ∨ d = 'n' then count_raw_specials rest
        else 1 + count_raw_specials (d :: rest)
    else (if c = '"' ∨ c = '\n' then 1 else 0) + count_raw_specials cs

/-! ## Unit mapping (`unit.rs`) -/

/-- The `NON_APPLICABLE_ON_PER_UNIT` table of unit.rs. -/
def NON_APPLICABLE_ON_PER_UNIT : List String :=
  ["1", "d", "h", "min", "s", "ms", "us", "ns"]

/-- The arms of `get_prom_units`'s match in unit.rs, in source order (the
patterns are pairwise distinct, so the string match is first-match lookup in
this table; the multi-pattern arms such as `"By" | "B"` appear as two
entries with the same result). -/
def PROM_UNITS_TABLE : List (String × String) :=
  [("d", "days"), ("h", "hours"), ("min", "minutes"), ("s", "seconds"),
   ("ms", "milliseconds"), ("us", "microseconds"), ("ns", "nanoseconds"),
   ("KiBy", "kibibytes"), ("MiBy", "mebibytes"), ("GiBy", "gibibytes"),
   ("TiBy", "tibibytes"), ("By", "bytes"), ("B", "bytes"),
   ("KBy", "kilobytes"), ("KB", "kilobytes"), ("MBy", "megabytes"),
   ("MB", "megabytes"), ("GBy", "gigabytes"), ("GB", "gigabytes"),
   ("TBy", "terabytes"), ("TB", "terabytes"), ("m", "meters"),
   ("V", "volts"), ("A", "amperes"), ("J", "joules"), ("W", "watts"),
   ("g", "grams"), ("Cel", "celsius"), ("Hz", "hertz"), ("1", "ratio"),
   ("%", "percent")]

/-- The main short-to-long unit match `get_prom_units` of unit.rs. -/
def get_prom_units (unit : String) : Option String :=
  PROM_UNITS_TABLE.lookup unit

/-- The arms of `get_prom_per_unit`'s match in unit.rs, in source order. -/
def PROM_PER_UNIT_TABLE : List (String × String) :=
  [("s", "second"), ("m", "minute"), ("h", "hour"), ("d", "day"),
   ("w", "week"), ("mo", "month"), ("y", "year")]

/-- The per-unit (denominator) match `get_prom_per_unit` of unit.rs. -/
def get_prom_per_unit (unit : String) : Option String :=
  PROM_PER_UNIT_TABLE.lookup unit

/-- Rust's `str::split_once` on a character list: split at the first
occurrence of `sep`, or `none` when `sep` does not occur. -/
def split_once_chars (sep : Char) : List Char → Option (List Char × List Char)
  | [] => none
  | c :: cs =>
    if c = sep then some ([], cs)
    else (split_once_chars sep cs).map (fun p => (c :: p.1, p.2))

/-- String-level wrapper for `split_once_chars`. -/
def split_once (s : String) (sep : Char) : Option (String × String) :=
  (split_once_chars sep s.data).map (fun p => (String.mk p.1, String.mk p.2))

/-- `get_unit_suffixes` of unit.rs: empty annotation maps to nothing, a
direct hit in the main table wins, otherwise a `num/den` annotation maps to
`per_<den>` or `<num>_per_<den>` as the tuple match of the source decides. -/
def get_unit_suffixes (unit : String) : Option String :=
  if unit.data.isEmpty then none
  else
    match get_prom_units unit with
    | some matched => some matched
    | none =>
      match split_once unit '/' with
      | some (first, second) =>
        match NON_APPLICABLE_ON_PER_UNIT.contains first,
              get_prom_units first, get_prom_per_unit second with
        | true, _, some second_part => some ("per_" ++ second_part)
        | false, none, some second_part => some ("per_" ++ second_part)
        | false, some first_part, some second_part =>
            some (first_part ++ "_per_" ++ second_part)
        | _, _, _ => none
      | none => none

example : get_unit_suffixes "m/s" = some "meters_per_second" := by decide
example : get_unit_suffixes "g" = some "grams" := by decide
example : get_unit_suffixes "{request}" = none := by decide
example : write_sanitized_name "1.metric" = "_1_metric" := by decide
example : write_escaped "a\"b" = "a\\\"b" := by decide

/-! ## Data model

The snapshot entities of `opentelemetry_sdk::metrics::data` as the renderer
reads them: only the accessors the renderer calls are modelled.  The sample
and start timestamps live at the aggregation level (`gauge.time()`,
`sum.time()`, `histogram.time()`/`start_time()`), exactly as the source
reads them.  Times are whole Unix seconds as `Int` (negative = pre-epoch). -/

/-- An attribute key/value pair; `Value::as_str()` makes the value a string. -/
structure KeyValue where
  key : String
  value : String
  deriving DecidableEq

/-- Aggregation temporality; `delta` stands for any non-cumulative value. -/
inductive Temporality where
  | cumulative
  | delta
  deriving DecidableEq

/-- The numeric formatter interface of format.rs (`FastDisplay`). -/
class FastDisplay (T : Type) where
  fast_display : T → String

/-- `u64` renders by decimal digit expansion. -/
instance : FastDisplay Nat := ⟨Nat.repr⟩

/-- `i64` renders by decimal digit expansion with sign. -/
instance : FastDisplay Int := ⟨Int.repr⟩

/-- A 64-bit float abstracted by its formatter output (ryu shortest
round-trip form with a trailing `.0` stripped); no claim depends on float
values or arithmetic, only on where the rendered text is placed. -/
structure F64 where
  rendered : String
  deriving DecidableEq

instance : FastDisplay F64 := ⟨F64.rendered⟩

/-- A number data point: a value and its attribute set. -/
structure NumberDataPoint (T : Type) where
  value : T
  attributes : List KeyValue
  deriving DecidableEq

/-- A histogram data point; `bounds` are always `f64` in the source and
`bucket_counts` are per-bucket `u64` counts paired 1:1 with `bounds`. -/
structure HistogramDataPoint (T : Type) where
  count : Nat
  sum : T
  min : Option T
  max : Option T
  bounds : List F64
  bucket_counts : List Nat
  attributes : List KeyValue
  deriving DecidableEq

/-- A gauge aggregation. -/
structure Gauge (T : Type) where
  data_points : List (NumberDataPoint T)
  time : Int
  deriving DecidableEq

/-- A sum aggregation. -/
structure Sum (T : Type) where
  data_points : List (NumberDataPoint T)
  time : Int
  temporality : Temporality
  is_monotonic : Bool
  deriving DecidableEq

/-- A histogram aggregation. -/
structure Histogram (T : Type) where
  data_points : List (HistogramDataPoint T)
  time : Int
  start_time : Int
  temporality : Temporality
  deriving DecidableEq

/-- `MetricData<T>`: the payload shapes; `exponentialHistogram` stands for
the variants the renderer's `_` arms treat as unsupported. -/
inductive MetricData (T : Type) where
  | gauge (g : Gauge T)
  | sum (s : Sum T)
  | histogram (h : Histogram T)
  | exponentialHistogram
  deriving DecidableEq

/-- `AggregatedMetrics`: the payload crossed with its numeric kind. -/
inductive AggregatedMetrics where
  | f64 (d : MetricData F64)
  | u64 (d : MetricData Nat)
  | i64 (d : MetricData Int)
  deriving DecidableEq

/-- A metric: name, description, short unit annotation and payload. -/
structure Metric where
  name : String
  description : String
  unit : String
  data : AggregatedMetrics
  deriving DecidableEq

/-- One instrumentation scope with its metrics. -/
structure ScopeMetrics where
  scope_name : String
  metrics : List Metric
  deriving DecidableEq

/-- The snapshot root. -/
structure ResourceMetrics where
  resource : List KeyValue
  scope_metrics : List ScopeMetrics
  deriving DecidableEq

/-! ## Sorting, attribute serialization, fingerprint -/

/-- Stable ordered insertion for `sortByKey`: `a` goes in front of the
first element whose key is not smaller. -/
def orderedInsertKey {α β : Type} [LinearOrder β] (key : α → β) (a : α) :
    List α → List α
  | [] => [a]
  | b :: l =>
    if key a ≤ key b then a :: b :: l else b :: orderedInsertKey key a l

/-- Sort by a key (stable insertion sort).  Models both
`sort_unstable_by_key` (scopes, metrics, attribute pairs — a deterministic
refinement of its unspecified tie order) and the documented-stable
`sort_by_cached_key` (data points by fingerprint). -/
def sortByKey {α β : Type} [LinearOrder β] (key : α → β) : List α → List α
  | [] => []
  | a :: l => orderedInsertKey key a (sortByKey key l)

/-- A stand-in for std's `DefaultHasher` over one string: a concrete
deterministic 64-bit hash.  The claims depend only on determinism, not on
SipHash's values. -/
def str_hash (s : String) : Nat :=
  s.data.foldl (fun h c => (h * 31 + c.toNat) % 2 ^ 64) 5381

/-- The per-pair hash of `hash_attrs`: the hasher is fed the key bytes then
the value bytes, which is hashing their concatenation. -/
def hash_kv (kv : KeyValue) : Nat := str_hash (kv.key ++ kv.value)

/-- `hash_attrs` of convert.rs: XOR-combine the per-pair hashes, making the
fingerprint invariant under reordering of the pairs. -/
def hash_attrs (attrs : List KeyValue) : Nat :=
  attrs.foldl (fun h kv => h ^^^ hash_kv kv) 0

/-- One `sanitized_key="escaped_value"` entry of `write_attrs_tuple`. -/
def attr_entry (kv : KeyValue) : String :=
  write_sanitized_name kv.key ++ "=\"" ++ write_escaped kv.value ++ "\""

/-- `write_attrs_tuple` (and `write_attrs`, which just reshapes the pairs):
sort the entries by key, render them comma-separated without braces.  With
the `otel_scope_info` feature off, `make_scope_name_attrs` contributes no
extra pair, so a point's serialized attributes are exactly its own. -/
def write_attrs_tuple (attrs : List KeyValue) : String :=
  String.intercalate "," ((sortByKey (fun kv => kv.key) attrs).map attr_entry)

/-- `to_timestamp`: pre-epoch times make `duration_since` fail and the
`expect("Time went backwards")` panic (`none`); otherwise the float-seconds
value renders via ryu with the trailing `.0` stripped, which on the modelled
whole-second times is the decimal numeral. -/
def to_timestamp (time : Int) : Option String :=
  if time < 0 then none else some (Nat.repr time.toNat)

/-! ## Metric classification and writers (convert.rs)

Each writer returns the list of output lines it produces (`uwriteln!` emits
one line per call; `write_as_openmetrics` joins them with `\n`), or `none`
where the source panics. -/

/-- The inner `get_metric_data_type` of `get_type`: gauges and sums are
always classified (a sum's temporality is NOT checked here), histograms only
when cumulative, anything else is unsupported (`Err(())`). -/
def get_metric_data_type {T : Type} : MetricData T → Option String
  | .gauge _ => some "gauge"
  | .sum s => if s.is_monotonic then some "counter" else some "gauge"
  | .histogram h =>
      if h.temporality = Temporality.cumulative then some "histogram" else none
  | .exponentialHistogram => none

/-- `get_type` of convert.rs, dispatching on the numeric kind. -/
def get_type : AggregatedMetrics → Option String
  | .f64 d => get_metric_data_type d
  | .u64 d => get_metric_data_type d
  | .i64 d => get_metric_data_type d

/-- The metric's output name from `extract_type_unit_and_name`: the
sanitized metric name, with `_` and the mapped unit suffix when one exists. -/
def metric_output_name (m : Metric) : String :=
  match get_unit_suffixes m.unit with
  | some u => write_sanitized_name m.name ++ "_" ++ u
  | none => write_sanitized_name m.name

/-- `write_header`: the `# TYPE` line, a `# UNIT` line when a unit mapping
exists, and a `# HELP` line with the escaped description when non-empty. -/
def write_header_lines (name typ : String) (unit : Option String)
    (description : String) : List String :=
  ["# TYPE " ++ name ++ " " ++ typ]
    ++ (match unit with
        | some u => ["# UNIT " ++ name ++ " " ++ u]
        | none => [])
    ++ (if description.isEmpty then []
        else ["# HELP " ++ name ++ " " ++ write_escaped description])

/-- One gauge (or non-monotonic sum) sample line. -/
def gauge_line {T : Type} [FastDisplay T] (name ts : String)
    (p : NumberDataPoint T) : String :=
  name ++ "\x7b" ++ write_attrs_tuple p.attributes ++ "\x7d "
    ++ FastDisplay.fast_display p.value ++ " " ++ ts

/-- One monotonic-sum sample line, with the `_total` suffix on the name. -/
def counter_line {T : Type} [FastDisplay T] (name ts : String)
    (p : NumberDataPoint T) : String :=
  name ++ "_total\x7b" ++ write_attrs_tuple p.attributes ++ "\x7d "
    ++ FastDisplay.fast_display p.value ++ " " ++ ts

/-- `write_gauge`: timestamp, points sorted by attribute fingerprint, one
line per point. -/
def write_gauge {T : Type} [FastDisplay T] (name : String) (g : Gauge T) :
    Option (List String) := do
  let ts ← to_timestamp g.time
  let points := sortByKey (fun p => hash_attrs p.attributes) g.data_points
  pure (points.map (gauge_line name ts))

/-- `write_counter`: the `assert_eq!` on cumulative temporality (modelled as
`none`, a panic), then points sorted by fingerprint and one line per point,
`_total` style when monotonic, gauge style otherwise. -/
def write_counter {T : Type} [FastDisplay T] (name : String) (s : Sum T) :
    Option (List String) :=
  if s.temporality = Temporality.cumulative then do
    let ts ← to_timestamp s.time
    let points := sortByKey (fun p => hash_attrs p.attributes) s.data_points
    if s.is_monotonic then pure (points.map (counter_line name ts))
    else pure (points.map (gauge_line name ts))
  else none

/-- The running cumulative bucket counts of `write_histogram`'s loop: each
`(bound, per-bucket count)` pair becomes `(bound, running total so far)`.
The accumulator `cumulative_count += count` is a `u64`, modelled as `Nat`
reduced mod `2^64` at each addition (the release-profile wrapping
semantics; under debug assertions the overflowing addition panics
instead). -/
def cum_buckets (acc : Nat) : List (F64 × Nat) → List (F64 × Nat)
  | [] => []
  | (bound, count) :: rest =>
    (bound, (acc + count) % 2 ^ 64) :: cum_buckets ((acc + count) % 2 ^ 64) rest

/-- One `_bucket` line: `attrs_comma` is the serialized attribute list with
its trailing comma (or empty), as the source's buffer mutation leaves it. -/
def bucket_line (name attrs_comma ts bound : String) (count : Nat) : String :=
  name ++ "_bucket\x7b" ++ attrs_comma ++ "le=\"" ++ bound ++ "\"\x7d "
    ++ Nat.repr count ++ " " ++ ts

/-- The source's `attrs.push(',')` before the bucket loop: a trailing comma
when the serialized attribute list is non-empty. -/
def hist_attrs_comma (attrs : String) : String :=
  if attrs.isEmpty then attrs else attrs ++ ","

/-- The per-point block of `write_histogram`'s loop: `_count`, `_sum` (the
min/max lines are feature-gated off), one `_bucket` line per declared bound
carrying the running cumulative count, and the final `+Inf` bucket carrying
the point's `count` field (the source writes `le="+Inf"` inline in the
format string; `bucket_line` with bound text `+Inf` builds the same line). -/
def histogram_point_lines {T : Type} [FastDisplay T] (name ts : String)
    (p : HistogramDataPoint T) : List String :=
  let attrs := write_attrs_tuple p.attributes
  let attrs_comma := hist_attrs_comma attrs
  [name ++ "_count\x7b" ++ attrs ++ "\x7d " ++ Nat.repr p.count ++ " " ++ ts,
   name ++ "_sum\x7b" ++ attrs ++ "\x7d "
     ++ FastDisplay.fast_display p.sum ++ " " ++ ts]
    ++ (cum_buckets 0 (p.bounds.zip p.bucket_counts)).map
        (fun bc => bucket_line name attrs_comma ts
          (FastDisplay.fast_display bc.1) bc.2)
    ++ [bucket_line name attrs_comma ts "+Inf" p.count]

/-- `write_histogram`: both timestamps convert first, then the single
metric-level `_created` line (its attribute list is only the feature-gated
scope attributes, hence empty here), then the cumulative-temporality
`assert_eq!` (a panic discards the partial sink content, so ordering among
the failure causes is immaterial to the `Option` result), then the
fingerprint-sorted points' blocks. -/
def write_histogram {T : Type} [FastDisplay T] (name : String)
    (h : Histogram T) : Option (List String) := do
  let ts ← to_timestamp h.time
  let created ← to_timestamp h.start_time
  let created_line := name ++ "_created\x7b\x7d " ++ created ++ " " ++ ts
  if h.temporality = Temporality.cumulative then
    let points := sortByKey (fun p => hash_attrs p.attributes) h.data_points
    pure (created_line :: (points.map (histogram_point_lines name ts)).flatten)
  else none

/-- The inner dispatch of `write_values`; the catch-all arm for unsupported
payloads is `unimplemented!`, a panic. -/
def write_metric_data {T : Type} [FastDisplay T] (name : String) :
    MetricData T → Option (List String)
  | .gauge g => write_gauge name g
  | .sum s => write_counter name s
  | .histogram h => write_histogram name h
  | .exponentialHistogram => none

/-- `write_values` of convert.rs, dispatching on the numeric kind. -/
def write_values (name : String) : AggregatedMetrics → Option (List String)
  | .f64 d => write_metric_data name d
  | .u64 d => write_metric_data name d
  | .i64 d => write_metric_data name d

/-- One metric inside the scope loop of `write_as_openmetrics`: when
`extract_type_unit_and_name` fails (`get_type` is `Err`) the metric is
skipped (the `tracing` warn is feature-gated off), otherwise header plus
values. -/
def metric_block (m : Metric) : Option (List String) :=
  match get_type m.data with
  | none => some []
  | some typ =>
      (write_values (metric_output_name m) m.data).map
        (fun vals =>
          write_header_lines (metric_output_name m) typ
            (get_unit_suffixes m.unit) m.description ++ vals)

/-- Sequential iteration with `?`-propagation, as the source's metric and
scope loops behave: the first panic/failure aborts the whole call, otherwise
the per-element results are collected in order. -/
def mapOrNone {α β : Type} (f : α → Option β) : List α → Option (List β)
  | [] => some []
  | a :: l => do
      let b ← f a
      let bs ← mapOrNone f l
      pure (b :: bs)

/-- One scope of `write_as_openmetrics`: metrics sorted by name, blocks
concatenated in order. -/
def scope_block (sm : ScopeMetrics) : Option (List String) :=
  (mapOrNone metric_block (sortByKey (fun m => m.name) sm.metrics)).map
    List.flatten

/-- The full line sequence of `write_as_openmetrics`: scopes sorted by
scope name (the feature-gated `target_info`/`otel_scope_info` lines are
off), then the terminal `# EOF`. -/
def render_lines (rm : ResourceMetrics) : Option (List String) :=
  (mapOrNone scope_block
      (sortByKey (fun sm => sm.scope_name) rm.scope_metrics)).map
    (fun blocks => blocks.flatten ++ ["# EOF"])

/-- `write_as_openmetrics` (equivalently `to_openmetrics_string` into a
fresh `String`, whose sink never fails): each line is written with a
trailing newline. -/
def write_as_openmetrics (rm : ResourceMetrics) : Option String :=
  (render_lines rm).map (fun ls => String.join (ls.map (fun l => l ++ "\n")))

/-! ## The exporter (`exporter.rs`)

`OpenMetricsExporter` holds a reader-visible front buffer and a back buffer.
One `export` call renders into the locked back buffer and swaps on success.
The render into the library's `String` back buffer cannot fail, so a sink
write failure (the `map_err` branch, which returns before the front-buffer
lock is taken) is modelled by an abstract per-call outcome carrying the
(possibly partial) sink content. -/

/-- The outcome of one render into the back buffer: the full text on
success, or the partial sink content at a sink write failure. -/
inductive RenderOutcome where
  | ok (text : String)
  | fail (sink_content : String)
  deriving DecidableEq

/-- The two buffers of `OpenMetricsExporter`. -/
structure OpenMetricsExporter where
  buffer : String
  backbuffer : String
  deriving DecidableEq

/-- `Default::default()`: both buffers empty. -/
def OpenMetricsExporter.mkDefault : OpenMetricsExporter := ⟨"", ""⟩

/-- One `export` call: the back buffer is cleared and rendered into; on a
sink failure the error propagates before the front buffer is touched, on
success front and back contents are swapped.  The second component is the
`OTelSdkResult` (`true` = `Ok`). -/
def export_step (e : OpenMetricsExporter) (r : RenderOutcome) :
    OpenMetricsExporter × Bool :=
  match r with
  | .ok text => (⟨text, e.buffer⟩, true)
  | .fail sink_content => (⟨e.buffer, sink_content⟩, false)

/-- `text()`: a clone of the front buffer. -/
def OpenMetricsExporter.text (e : OpenMetricsExporter) : String := e.buffer

/-- A fresh exporter driven through a sequence of export outcomes. -/
def run_exports (rs : List RenderOutcome) : OpenMetricsExporter :=
  rs.foldl (fun e r => (export_step e r).1) OpenMetricsExporter.mkDefault

/-- The text of the most recent successful outcome, or `dflt` if none. -/
def last_success : List RenderOutcome → String → String
  | [], dflt => dflt
  | .ok s :: rs, _ => last_success rs s
  | .fail _ :: rs, dflt => last_success rs dflt

/-! ## Properties of the exporter buffers (claim C9) -/

theorem foldl_export_text :
    ∀ (rs : List RenderOutcome) (e : OpenMetricsExporter),
      (rs.foldl (fun e r => (export_step e r).1) e).text =
        last_success rs e.text := by
  intro rs
  induction rs with
  | nil => intro e; rfl
  | cons r rs ih =>
    intro e
    cases r with
    | ok s => exact ih ⟨s, e.buffer⟩
    | fail sc => exact ih ⟨e.buffer, sc⟩

/-- C9: after any sequence of export outcomes on a fresh exporter, `text()`
returns the text of the most recent successful export, or the empty string
when none has succeeded; and a failing export returns an error and leaves
the reader-visible text unchanged (the partial render stays in the back
buffer and is never published). -/
theorem c9_text_last_successful_export :
    (∀ rs : List RenderOutcome, (run_exports rs).text = last_success rs "")
    ∧ ∀ (e : OpenMetricsExporter) (sc : String),
        ((export_step e (RenderOutcome.fail sc)).1).text = e.text
          ∧ (export_step e (RenderOutcome.fail sc)).2 = false :=
  ⟨fun rs => foldl_export_text rs OpenMetricsExporter.mkDefault,
   fun _ _ => ⟨rfl, rfl⟩⟩

/-! ## Properties of the name sanitizer (claim C6) -/

theorem sanitize_loop_legal :
    ∀ (cs : List Char) (b : Bool), ∀ c ∈ sanitize_loop b cs, legal_name_char c := by
  intro cs
  induction cs with
  | nil => intro b c hc; cases hc
  | cons d ds ih =>
    intro b c hc
    unfold sanitize_loop at hc
    by_cases hd : d.isAlphanum ∨ d = ':'
    · rw [if_pos hd] at hc
      cases hc with
      | head => exact hd.elim Or.inl (fun h => Or.inr (Or.inl h))
      | tail _ h => exact ih false c h
    · rw [if_neg hd] at hc
      cases b with
      | false =>
        rw [if_neg (by simp)] at hc
        cases hc with
        | head => exact Or.inr (Or.inr rfl)
        | tail _ h => exact ih true c h
      | true =>
        rw [if_pos rfl] at hc
        exact ih true c hc

theorem sanitize_loop_true_head :
    ∀ cs : List Char, (sanitize_loop true cs).head? ≠ some '_' := by
  intro cs
  induction cs with
  | nil => simp [sanitize_loop]
  | cons d ds ih =>
    unfold sanitize_loop
    by_cases hd : d.isAlphanum ∨ d = ':'
    · rw [if_pos hd]
      simp only [List.head?_cons]
      intro h
      rw [Option.some_inj] at h
      subst h
      exact absurd hd (by decide)
    · rw [if_neg hd, if_pos rfl]
      exact ih

theorem sanitize_loop_chain :
    ∀ (cs : List Char) (b : Bool),
      List.Chain' (fun a c => ¬(a = '_' ∧ c = '_')) (sanitize_loop b cs) := by
  intro cs
  induction cs with
  | nil => intro b; simp [sanitize_loop]
  | cons d ds ih =>
    intro b
    unfold sanitize_loop
    by_cases hd : d.isAlphanum ∨ d = ':'
    · rw [if_pos hd, List.chain'_cons']
      refine ⟨?_, ih false⟩
      rintro y hy ⟨hd1, _⟩
      subst hd1
      exact absurd hd (by decide)
    · rw [if_neg hd]
      cases b with
      | false =>
        rw [if_neg (by simp), List.chain'_cons']
        refine ⟨?_, ih true⟩
        rintro y hy ⟨_, hy1⟩
        subst hy1
        exact sanitize_loop_true_head ds (Option.mem_def.mp hy)
      | true =>
        rw [if_pos rfl]
        exact ih true

/-- C6: for every input string, the name sanitizer's output matches
`_?[A-Za-z0-9:_]*` (every emitted character is ASCII alphanumeric, `:` or
`_`, which is exactly that charset), contains no two consecutive
underscores, and when the input's first character is an ASCII digit the
output begins with `_`. -/
theorem c6_name_sanitizer_shape (name : String) :
    (∀ c ∈ (write_sanitized_name name).data, legal_name_char c)
    ∧ List.Chain' (fun a c => ¬(a = '_' ∧ c = '_')) (write_sanitized_name name).data
    ∧ (name.data.head?.any Char.isDigit = true →
        (write_sanitized_name name).data.head? = some '_') := by
  unfold write_sanitized_name write_sanitized_name_chars
  by_cases h : name.data.head?.any Char.isDigit = true
  · rw [if_pos h]
    refine ⟨?_, ?_, fun _ => rfl⟩
    · intro c hc
      cases hc with
      | head => exact Or.inr (Or.inr rfl)
      | tail _ h2 => exact sanitize_loop_legal _ true c h2
    · rw [List.chain'_cons']
      refine ⟨?_, sanitize_loop_chain _ true⟩
      rintro y hy ⟨_, hy1⟩
      subst hy1
      exact sanitize_loop_true_head _ (Option.mem_def.mp hy)
  · rw [if_neg h]
    exact ⟨fun c hc => sanitize_loop_legal _ false c hc,
      sanitize_loop_chain _ false, fun hd => absurd hd h⟩

/-- Witness for C6 at the input `"1.metric"` (whose first character is a
digit), discharging the digit hypothesis concretely. -/
theorem c6_name_sanitizer_shape_witness :
    (∀ c ∈ (write_sanitized_name "1.metric").data, legal_name_char c)
    ∧ List.Chain' (fun a c => ¬(a = '_' ∧ c = '_'))
        (write_sanitized_name "1.metric").data
    ∧ (("1.metric" : String).data.head?.any Char.isDigit = true →
        (write_sanitized_name "1.metric").data.head? = some '_') :=
  c6_name_sanitizer_shape "1.metric"

/-! ## Properties of the value escaper (claim C7) -/

theorem write_escaped_chars_flatMap (cs : List Char) :
    write_escaped_chars cs = cs.flatMap escape_char := by
  induction cs with
  | nil => rfl
  | cons c cs ih => simp [write_escaped_chars, ih]

theorem count_raw_escape_chars (cs : List Char) :
    count_raw_specials (write_escaped_chars cs) = 0 := by
  induction cs with
  | nil => rfl
  | cons c cs ih =>
    unfold write_escaped_chars escape_char
    by_cases h1 : c = '\\'
    · rw [if_pos h1]
      simpa [count_raw_specials] using ih
    · rw [if_neg h1]
      by_cases h2 : c = '"'
      · rw [if_pos h2]
        simpa [count_raw_specials] using ih
      · rw [if_neg h2]
        by_cases h3 : c = '\n'
        · rw [if_pos h3]
          simpa [count_raw_specials] using ih
        · rw [if_neg h3]
          show count_raw_specials (c :: write_escaped_chars cs) = 0
          unfold count_raw_specials
          rw [if_neg h1, if_neg (show ¬(c = '"' ∨ c = '\n') from by tauto)]
          simpa using ih

theorem unescape_escape_chars (cs : List Char) :
    unescape_chars (write_escaped_chars cs) = cs := by
  induction cs with
  | nil => rfl
  | cons c cs ih =>
    unfold write_escaped_chars escape_char
    by_cases h1 : c = '\\'
    · rw [if_pos h1]
      subst h1
      simpa [unescape_chars] using ih
    · rw [if_neg h1]
      by_cases h2 : c = '"'
      · rw [if_pos h2]
        subst h2
        simpa [unescape_chars] using ih
      · rw [if_neg h2]
        by_cases h3 : c = '\n'
        · rw [if_pos h3]
          subst h3
          simpa [unescape_chars] using ih
        · rw [if_neg h3]
          show unescape_chars (c :: write_escaped_chars cs) = c :: cs
          unfold unescape_chars
          rw [if_neg h1, ih]

/-! ## Properties of the unit mapper (claim C8) -/

theorem lookup_mem_keys {β : Type} (a : String) (b : β) :
    ∀ l : List (String × β), List.lookup a l = some b → a ∈ l.map Prod.fst := by
  intro l
  induction l with
  | nil => intro h; cases h
  | cons e es ih =>
    obtain ⟨k, v⟩ := e
    by_cases hk : a = k
    · subst hk
      intro _
      exact List.mem_cons_self _ _
    · intro h
      simp only [List.lookup_cons, beq_false_of_ne hk] at h
      exact List.mem_cons_of_mem _ (ih h)

theorem get_prom_units_slash (s : String) (hs : '/' ∈ s.data) :
    get_prom_units s = none := by
  cases h : get_prom_units s with
  | none => rfl
  | some u =>
    exfalso
    have hmem := lookup_mem_keys s u PROM_UNITS_TABLE h
    have hall : ∀ k ∈ PROM_UNITS_TABLE.map Prod.fst, '/' ∉ k.data := by decide
    exact hall s hmem hs

theorem split_once_chars_append (l₁ l₂ : List Char) (h : '/' ∉ l₁) :
    split_once_chars '/' (l₁ ++ '/' :: l₂) = some (l₁, l₂) := by
  induction l₁ with
  | nil => simp [split_once_chars]
  | cons c cs ih =>
    have hc : c ≠ '/' := fun hcon => h (hcon ▸ List.mem_cons_self c cs)
    have hcs : '/' ∉ cs := fun hm => h (List.mem_cons_of_mem c hm)
    simp [split_once_chars, hc, ih hcs]

theorem split_once_append (s₁ s₂ : String) (h : '/' ∉ s₁.data) :
    split_once (s₁ ++ "/" ++ s₂) '/' = some (s₁, s₂) := by
  unfold split_once
  have hd : (s₁ ++ "/" ++ s₂).data = s₁.data ++ '/' :: s₂.data := by
    simp [String.data_append]
  rw [hd, split_once_chars_append _ _ h]
  rfl

/-- C8: the unit mapper's concrete examples, and the general behavior on an
annotation containing `/`: split at the first `/`; no mapping when the
denominator is not in the per-unit table; `per_<den>` when the numerator is
empty, in the non-applicable set, or absent from the main table;
`<num>_per_<den>` otherwise. -/
theorem c8_unit_mapping :
    (get_unit_suffixes "g" = some "grams"
      ∧ get_unit_suffixes "test/y" = some "per_year"
      ∧ get_unit_suffixes "m/s" = some "meters_per_second"
      ∧ get_unit_suffixes "invalid" = none
      ∧ get_unit_suffixes "" = none
      ∧ get_unit_suffixes "{request}" = none)
    ∧ ∀ (s₁ s₂ : String), '/' ∉ s₁.data →
        get_unit_suffixes (s₁ ++ "/" ++ s₂) =
          (get_prom_per_unit s₂).map (fun second_part =>
            if NON_APPLICABLE_ON_PER_UNIT.contains s₁ = true
                ∨ get_prom_units s₁ = none
            then "per_" ++ second_part
            else (get_prom_units s₁).getD "" ++ "_per_" ++ second_part) := by
  refine ⟨⟨by decide, by decide, by decide, by decide, by decide, by decide⟩, ?_⟩
  intro s₁ s₂ h
  have hne : ((s₁ ++ "/" ++ s₂).data).isEmpty = false := by
    simp [String.data_append]
  have hmain : get_prom_units (s₁ ++ "/" ++ s₂) = none :=
    get_prom_units_slash _ (by simp [String.data_append])
  unfold get_unit_suffixes
  rw [hne, hmain, split_once_append s₁ s₂ h]
  simp only [Bool.false_eq_true, if_false]
  cases hp : get_prom_per_unit s₂ with
  | none =>
    cases hna : NON_APPLICABLE_ON_PER_UNIT.contains s₁ <;>
      cases hpu : get_prom_units s₁ <;> rfl
  | some sp =>
    cases hna : NON_APPLICABLE_ON_PER_UNIT.contains s₁ with
    | true => simp
    | false =>
      cases hpu : get_prom_units s₁ with
      | none => simp
      | some fp => simp

/-- Witness for C8's general split statement at the annotation `"km/h"`
(numerator `km`: not in the non-applicable set and absent from the main
table, so the result is `per_hour`). -/
theorem c8_unit_mapping_witness :
    get_unit_suffixes ("km" ++ "/" ++ "h") =
      (get_prom_per_unit "h").map (fun second_part =>
        if NON_APPLICABLE_ON_PER_UNIT.contains "km" = true
            ∨ get_prom_units "km" = none
        then "per_" ++ second_part
        else (get_prom_units "km").getD "" ++ "_per_" ++ second_part) :=
  c8_unit_mapping.2 "km" "h" (by decide)

/-! ## Properties of the emitted histogram buckets (claim C4) -/

theorem cum_buckets_ge :
    ∀ (l : List (F64 × Nat)) (acc : Nat),
      acc + (l.map Prod.snd).sum < 2 ^ 64 →
      ∀ x ∈ cum_buckets acc l, acc ≤ x.2 := by
  intro l
  induction l with
  | nil => intro acc _ x hx; cases hx
  | cons bc rest ih =>
    obtain ⟨b, c⟩ := bc
    intro acc hb x hx
    simp only [List.map_cons, List.sum_cons] at hb
    have hfit : acc + c < 2 ^ 64 :=
      lt_of_le_of_lt (by omega) hb
    have hmod : (acc + c) % 2 ^ 64 = acc + c := Nat.mod_eq_of_lt hfit
    rw [cum_buckets, hmod] at hx
    cases hx with
    | head => exact Nat.le_add_right _ _
    | tail _ hx =>
      exact le_trans (Nat.le_add_right _ _)
        (ih (acc + c) (by omega) x hx)

theorem cum_buckets_chain :
    ∀ (l : List (F64 × Nat)) (acc : Nat),
      acc + (l.map Prod.snd).sum < 2 ^ 64 →
      List.Chain' (fun a b => a.2 ≤ b.2) (cum_buckets acc l) := by
  intro l
  induction l with
  | nil => intro acc _; exact List.chain'_nil
  | cons bc rest ih =>
    obtain ⟨b, c⟩ := bc
    intro acc hb
    simp only [List.map_cons, List.sum_cons] at hb
    have hfit : acc + c < 2 ^ 64 :=
      lt_of_le_of_lt (by omega) hb
    have hmod : (acc + c) % 2 ^ 64 = acc + c := Nat.mod_eq_of_lt hfit
    rw [cum_buckets, hmod, List.chain'_cons']
    refine ⟨?_, ih (acc + c) (by omega)⟩
    intro y hy
    exact cum_buckets_ge rest (acc + c) (by omega) y
      (List.mem_of_mem_head? hy)

/-- C4 (amended): within one histogram data point, the cumulative counts
placed on the `_bucket` lines (the running totals `cum_buckets` which
`histogram_point_lines` renders, one per declared bound) are monotonically
non-decreasing provided the per-bucket counts paired with a bound sum to
less than `2^64`, so the `u64` running total never wraps; and the last
emitted line of the point's block is, unconditionally, exactly the `+Inf`
bucket line carrying the point's total `count` field. -/
theorem c4_bucket_monotone_inf_total {T : Type} [FastDisplay T]
    (name ts : String) (p : HistogramDataPoint T)
    (hb : ((p.bounds.zip p.bucket_counts).map Prod.snd).sum < 2 ^ 64) :
    List.Chain' (· ≤ ·)
      ((cum_buckets 0 (p.bounds.zip p.bucket_counts)).map Prod.snd)
    ∧ (histogram_point_lines name ts p).getLast? =
        some (bucket_line name
          (hist_attrs_comma (write_attrs_tuple p.attributes)) ts "+Inf"
          p.count) := by
  constructor
  · rw [List.chain'_map]
    exact cum_buckets_chain _ 0 (by omega)
  · unfold histogram_point_lines
    rw [List.getLast?_concat]

/-- A histogram point whose per-bucket `u64` counts sum past `2^64 - 1`. -/
def hpointWrap : HistogramDataPoint Nat :=
  { count := 3, sum := 0, min := none, max := none,
    bounds := [⟨"1"⟩, ⟨"2"⟩],
    bucket_counts := [2 ^ 64 - 1, 1],
    attributes := [] }

/-- Counterexample to C4 as stated: on this point the `u64` running total
wraps (`2^64 - 1` then `0`; under debug assertions the same addition
panics), so the counts emitted on the `_bucket` lines are not monotonically
non-decreasing. -/
theorem c4_counterexample_u64_wrap :
    (cum_buckets 0 (hpointWrap.bounds.zip hpointWrap.bucket_counts)).map
        Prod.snd = [2 ^ 64 - 1, 0]
    ∧ ¬ List.Chain' (· ≤ ·)
        ((cum_buckets 0 (hpointWrap.bounds.zip hpointWrap.bucket_counts)).map
          Prod.snd) := by
  have heq : (cum_buckets 0
      (hpointWrap.bounds.zip hpointWrap.bucket_counts)).map Prod.snd
      = [2 ^ 64 - 1, 0] := by decide
  refine ⟨heq, ?_⟩
  intro hcon
  rw [heq, List.chain'_cons] at hcon
  exact absurd hcon.1 (by decide)

/-- A small in-range histogram point for the C4 witness. -/
def hpointSmall : HistogramDataPoint Nat :=
  { count := 2, sum := 3, min := none, max := none,
    bounds := [⟨"1"⟩], bucket_counts := [2], attributes := [] }

/-- Witness for the amended C4 at a point whose counts fit in `u64`. -/
theorem c4_bucket_monotone_inf_total_witness :
    List.Chain' (· ≤ ·)
      ((cum_buckets 0 (hpointSmall.bounds.zip hpointSmall.bucket_counts)).map
        Prod.snd)
    ∧ (histogram_point_lines "h" "1" hpointSmall).getLast? =
        some (bucket_line "h"
          (hist_attrs_comma (write_attrs_tuple hpointSmall.attributes)) "1"
          "+Inf" hpointSmall.count) :=
  c4_bucket_monotone_inf_total "h" "1" hpointSmall (by decide)

/-! ## Placement of the histogram `_created` line (claim C2) -/

/-- Bool test that `pre` is a prefix of `s` (used to recognize the
`<name>_created` sample lines in rendered output). -/
def starts_with (pre s : String) : Bool := pre.data.isPrefixOf s.data

theorem isPrefixOf_append_same :
    ∀ (n a b : List Char), (n ++ a).isPrefixOf (n ++ b) = a.isPrefixOf b := by
  intro n
  induction n with
  | nil => intro a b; rfl
  | cons c cs ih => intro a b; simp [List.isPrefixOf, ih]

theorem starts_with_append (n a b : String) :
    starts_with (n ++ a) (n ++ b) = a.data.isPrefixOf b.data := by
  unfold starts_with
  rw [String.data_append, String.data_append, isPrefixOf_append_same]

theorem created_pre_count (name u : String) :
    starts_with (name ++ "_created") (name ++ ("_count\x7b" ++ u)) = false := by
  rw [starts_with_append]; rfl

theorem created_pre_sum (name u : String) :
    starts_with (name ++ "_created") (name ++ ("_sum\x7b" ++ u)) = false := by
  rw [starts_with_append]; rfl

theorem created_pre_bucket (name u : String) :
    starts_with (name ++ "_created") (name ++ ("_bucket\x7b" ++ u)) = false := by
  rw [starts_with_append]; rfl

theorem created_pre_self (name u : String) :
    starts_with (name ++ "_created") (name ++ ("_created\x7b\x7d " ++ u)) = true := by
  rw [starts_with_append]; rfl

theorem countP_flatten_zero {α : Type} (p : α → Bool) :
    ∀ L : List (List α), (∀ l ∈ L, l.countP p = 0) → L.flatten.countP p = 0 := by
  intro L
  induction L with
  | nil => intro _; rfl
  | cons l L ih =>
    intro h
    rw [List.flatten_cons, List.countP_append,
      h l (List.mem_cons_self _ _),
      ih (fun x hx => h x (List.mem_cons_of_mem _ hx))]

theorem histogram_point_lines_no_created {T : Type} [FastDisplay T]
    (name ts : String) (p : HistogramDataPoint T) :
    (histogram_point_lines name ts p).countP
      (starts_with (name ++ "_created")) = 0 := by
  rw [List.countP_eq_zero]
  intro l hl
  unfold histogram_point_lines at hl
  rw [List.mem_append, List.mem_append] at hl
  intro hcon
  rcases hl with (hl | hl) | hl
  · rw [List.mem_cons, List.mem_singleton] at hl
    rcases hl with hl | hl <;> subst hl
    · simp only [String.append_assoc] at hcon
      rw [created_pre_count] at hcon
      exact Bool.noConfusion hcon
    · simp only [String.append_assoc] at hcon
      rw [created_pre_sum] at hcon
      exact Bool.noConfusion hcon
  · rw [List.mem_map] at hl
    obtain ⟨bc, _, hl⟩ := hl
    subst hl
    unfold bucket_line at hcon
    simp only [String.append_assoc] at hcon
    rw [created_pre_bucket] at hcon
    exact Bool.noConfusion hcon
  · rw [List.mem_singleton] at hl
    subst hl
    unfold bucket_line at hcon
    simp only [String.append_assoc] at hcon
    rw [created_pre_bucket] at hcon
    exact Bool.noConfusion hcon

/-- Successful evaluation of `write_histogram`: cumulative temporality and
epoch-or-later timestamps yield the metric-level `_created` line followed by
the fingerprint-sorted per-point blocks. -/
theorem write_histogram_eq {T : Type} [FastDisplay T]
    (name : String) (h : Histogram T)
    (hc : h.temporality = Temporality.cumulative)
    (ht : 0 ≤ h.time) (hst : 0 ≤ h.start_time) :
    write_histogram name h =
      some ((name ++ "_created\x7b\x7d " ++ Nat.repr h.start_time.toNat ++ " "
          ++ Nat.repr h.time.toNat)
        :: ((sortByKey (fun p => hash_attrs p.attributes) h.data_points).map
              (histogram_point_lines name (Nat.repr h.time.toNat))).flatten) := by
  have hts : to_timestamp h.time = some (Nat.repr h.time.toNat) := by
    unfold to_timestamp; rw [if_neg (not_lt.mpr ht)]
  have hcr : to_timestamp h.start_time = some (Nat.repr h.start_time.toNat) := by
    unfold to_timestamp; rw [if_neg (not_lt.mpr hst)]
  have hbr : write_histogram name h =
      if h.temporality = Temporality.cumulative then
        some ((name ++ "_created\x7b\x7d " ++ Nat.repr h.start_time.toNat
            ++ " " ++ Nat.repr h.time.toNat)
          :: ((sortByKey (fun p => hash_attrs p.attributes) h.data_points).map
                (histogram_point_lines name (Nat.repr h.time.toNat))).flatten)
      else none := by
    unfold write_histogram
    rw [hts, hcr]
    rfl
  rw [hbr, if_pos hc]

/-- C2 (amended): a cumulative histogram metric with epoch-or-later
timestamps renders as a single metric-level `_created{} <start> <ts>` line —
its attribute list is the (feature-gated, here empty) scope attributes, not
any point's own — placed before all per-point `_count`/`_sum`/`_bucket`
lines, and that line is the only `_created`-prefixed line regardless of the
number of data points. -/
theorem c2_single_created_line_first {T : Type} [FastDisplay T]
    (name : String) (h : Histogram T)
    (hc : h.temporality = Temporality.cumulative)
    (ht : 0 ≤ h.time) (hst : 0 ≤ h.start_time) :
    write_histogram name h =
      some ((name ++ "_created\x7b\x7d " ++ Nat.repr h.start_time.toNat ++ " "
          ++ Nat.repr h.time.toNat)
        :: ((sortByKey (fun p => hash_attrs p.attributes) h.data_points).map
              (histogram_point_lines name (Nat.repr h.time.toNat))).flatten)
    ∧ ∀ lines, write_histogram name h = some lines →
        lines.countP (starts_with (name ++ "_created")) = 1 := by
  have heq := write_histogram_eq name h hc ht hst
  refine ⟨heq, ?_⟩
  intro lines hl
  rw [heq] at hl
  injection hl with hl
  subst hl
  rw [List.countP_cons]
  have h1 : starts_with (name ++ "_created")
      (name ++ "_created\x7b\x7d " ++ Nat.repr h.start_time.toNat ++ " "
        ++ Nat.repr h.time.toNat) = true := by
    simp only [String.append_assoc]
    rw [created_pre_self]
  rw [h1, countP_flatten_zero]
  · rfl
  · intro l hl2
    rw [List.mem_map] at hl2
    obtain ⟨p, _, hp⟩ := hl2
    subst hp
    exact histogram_point_lines_no_created name _ p

/-- A concrete two-point cumulative u64 histogram used to refute C2 as
stated and to witness its amended form. -/
def histC2 : Histogram Nat :=
  { data_points := [
      { count := 2, sum := 3, min := none, max := none,
        bounds := [⟨"1"⟩], bucket_counts := [1],
        attributes := [⟨"kk", "v1"⟩] },
      { count := 1, sum := 4, min := none, max := none,
        bounds := [⟨"1"⟩], bucket_counts := [1],
        attributes := [⟨"kk", "v2"⟩] }],
    time := 5, start_time := 3, temporality := Temporality.cumulative }

/-- Counterexample to C2 as stated: this two-point cumulative histogram
renders exactly one `_created` line (not one per data point), and no
`_created` line carries a point's own attribute set (none mentions the
first point's `kk="v1"`). -/
theorem c2_counterexample_created_not_per_point :
    histC2.data_points.length = 2
    ∧ ((write_histogram "myhist" histC2).getD []).countP
        (starts_with ("myhist" ++ "_created")) = 1
    ∧ ((write_histogram "myhist" histC2).getD []).countP
        (starts_with ("myhist" ++ "_created"))
        ≠ histC2.data_points.length
    ∧ ((write_histogram "myhist" histC2).getD []).countP
        (starts_with "myhist_created\x7bkk=\"v1\"") = 0 := by
  refine ⟨rfl, by decide, by decide, by decide⟩

/-- Witness for the amended C2 at the concrete two-point histogram. -/
theorem c2_single_created_line_first_witness :
    write_histogram "myhist" histC2 =
      some (("myhist" ++ "_created\x7b\x7d " ++ Nat.repr histC2.start_time.toNat
          ++ " " ++ Nat.repr histC2.time.toNat)
        :: ((sortByKey (fun p => hash_attrs p.attributes) histC2.data_points).map
              (histogram_point_lines "myhist" (Nat.repr histC2.time.toNat))).flatten)
    ∧ ∀ lines, write_histogram "myhist" histC2 = some lines →
        lines.countP (starts_with ("myhist" ++ "_created")) = 1 :=
  c2_single_created_line_first "myhist" histC2 rfl (by decide) (by decide)

/-- C7: the value escaper rewrites each character through the escape table
(backslash, quote and newline get escaped, every other character passes
through unchanged), the escaped output re-scans to zero raw (unescaped)
special characters, and unescaping recovers the original input exactly. -/
theorem c7_escape_raw_free_roundtrip (value : String) :
    (write_escaped value).data = value.data.flatMap escape_char
    ∧ count_raw_specials (write_escaped value).data = 0
    ∧ unescape (write_escaped value) = value := by
  refine ⟨write_escaped_chars_flatMap value.data,
    count_raw_escape_chars value.data, ?_⟩
  show String.mk (unescape_chars (write_escaped_chars value.data)) = value
  rw [unescape_escape_chars]

/-! ## End-to-end monotonic sum rendering (claim C5) -/

/-- The claim's snapshot: one cumulative monotonic u64 sum metric with a
single data point of value 125 and no attributes, sample time 1s. -/
def snapC5 : ResourceMetrics :=
  { resource := [],
    scope_metrics := [
      { scope_name := "myscope",
        metrics := [
          { name := "mycounter", description := "", unit := "",
            data := AggregatedMetrics.u64 (MetricData.sum
              { data_points := [{ value := 125, attributes := [] }],
                time := 1, temporality := Temporality.cumulative,
                is_monotonic := true }) }] }] }

/-- Counterexample to C5 as stated: the metadata header of the rendered
snapshot is `# TYPE mycounter counter` — no header line names
`mycounter_total`, even though the sample line does. -/
theorem c5_counterexample_header_without_total :
    ((render_lines snapC5).getD []).countP
        (starts_with "# TYPE mycounter_total") = 0
    ∧ ((render_lines snapC5).getD []).countP
        (starts_with "mycounter_total\x7b") = 1 := by
  exact ⟨by decide, by decide⟩

/-- C5 (amended): the snapshot renders exactly as a `# TYPE mycounter
counter` header (the `# TYPE` name does not carry the `_total` suffix)
directly followed by the sample line `mycounter_total{} 125 1`, whose name
does, and the terminal `# EOF`. -/
theorem c5_counter_sample_under_header :
    write_as_openmetrics snapC5 =
      some "# TYPE mycounter counter\nmycounter_total\x7b\x7d 125 1\n# EOF\n" := by
  decide

/-! ## Totality of rendering (claims C1 and C10) -/

/-- Per-payload success condition of the writers: a gauge needs an
epoch-or-later sample time; a sum must be cumulative (otherwise
`write_counter`'s `assert_eq!` panics — classification does NOT filter
non-cumulative sums) with an epoch-or-later time; a histogram must be
cumulative (when classification is bypassed, `write_histogram`'s own assert
fires) with both timestamps epoch-or-later; the remaining payloads always
panic in `write_values` (but are filtered out by `get_type`). -/
def metric_data_ok {T : Type} : MetricData T → Bool
  | .gauge g => decide (0 ≤ g.time)
  | .sum s => decide (s.temporality = Temporality.cumulative)
      && decide (0 ≤ s.time)
  | .histogram h => decide (h.temporality = Temporality.cumulative)
      && (decide (0 ≤ h.time) && decide (0 ≤ h.start_time))
  | .exponentialHistogram => false

/-- `metric_data_ok` across the numeric kinds. -/
def data_ok : AggregatedMetrics → Bool
  | .f64 d => metric_data_ok d
  | .u64 d => metric_data_ok d
  | .i64 d => metric_data_ok d

/-- A metric renders without panicking: either classification rejects it
(it is skipped), or its payload satisfies the writer's conditions. -/
def metric_ok (m : Metric) : Bool :=
  match get_type m.data with
  | none => true
  | some _ => data_ok m.data

/-- Every metric of the snapshot renders or is skipped. -/
def snapshot_ok (rm : ResourceMetrics) : Bool :=
  rm.scope_metrics.all (fun sm => sm.metrics.all metric_ok)

theorem perm_orderedInsertKey {α β : Type} [LinearOrder β] (key : α → β)
    (a : α) : ∀ l : List α, (orderedInsertKey key a l).Perm (a :: l) := by
  intro l
  induction l with
  | nil => exact List.Perm.refl _
  | cons b l ih =>
    unfold orderedInsertKey
    by_cases hc : key a ≤ key b
    · rw [if_pos hc]
    · rw [if_neg hc]
      exact (ih.cons b).trans (List.Perm.swap a b l)

theorem perm_sortByKey {α β : Type} [LinearOrder β] (key : α → β) :
    ∀ l : List α, (sortByKey key l).Perm l := by
  intro l
  induction l with
  | nil => exact List.Perm.refl _
  | cons a l ih =>
    unfold sortByKey
    exact (perm_orderedInsertKey key a (sortByKey key l)).trans (ih.cons a)

theorem mem_sortByKey {α β : Type} [LinearOrder β] (key : α → β)
    (l : List α) (x : α) : x ∈ sortByKey key l ↔ x ∈ l :=
  (perm_sortByKey key l).mem_iff

theorem sorted_orderedInsertKey {α β : Type} [LinearOrder β] (key : α → β)
    (a : α) : ∀ l : List α,
      List.Sorted (fun x y => key x ≤ key y) l →
      List.Sorted (fun x y => key x ≤ key y) (orderedInsertKey key a l) := by
  intro l
  induction l with
  | nil => intro _; exact List.sorted_singleton a
  | cons b l ih =>
    intro hs
    rw [List.sorted_cons] at hs
    unfold orderedInsertKey
    by_cases hc : key a ≤ key b
    · rw [if_pos hc, List.sorted_cons]
      refine ⟨?_, List.sorted_cons.mpr hs⟩
      intro x hx
      cases hx with
      | head => exact hc
      | tail _ hx => exact le_trans hc (hs.1 x hx)
    · rw [if_neg hc, List.sorted_cons]
      refine ⟨?_, ih hs.2⟩
      intro x hx
      rw [(perm_orderedInsertKey key a l).mem_iff, List.mem_cons] at hx
      cases hx with
      | inl hx => subst hx; exact le_of_not_le hc
      | inr hx => exact hs.1 x hx

theorem sorted_sortByKey {α β : Type} [LinearOrder β] (key : α → β) :
    ∀ l : List α, List.Sorted (fun x y => key x ≤ key y) (sortByKey key l) := by
  intro l
  induction l with
  | nil => exact List.sorted_nil
  | cons a l ih =>
    unfold sortByKey
    exact sorted_orderedInsertKey key a (sortByKey key l) ih

theorem mapOrNone_isSome {α β : Type} (f : α → Option β) :
    ∀ l : List α, (∀ x ∈ l, (f x).isSome = true) →
      (mapOrNone f l).isSome = true := by
  intro l
  induction l with
  | nil => intro _; rfl
  | cons a l ih =>
    intro h
    obtain ⟨b, hb⟩ := Option.isSome_iff_exists.mp
      (h a (List.mem_cons_self _ _))
    obtain ⟨bs, hbs⟩ := Option.isSome_iff_exists.mp
      (ih (fun x hx => h x (List.mem_cons_of_mem _ hx)))
    unfold mapOrNone
    rw [hb, hbs]
    rfl

theorem mapOrNone_eq_none_of_mem {α β : Type} (f : α → Option β) :
    ∀ (l : List α) (x : α), x ∈ l → f x = none → mapOrNone f l = none := by
  intro l
  induction l with
  | nil => intro x hx; cases hx
  | cons a l ih =>
    intro x hx hfx
    unfold mapOrNone
    cases hx with
    | head => rw [hfx]; rfl
    | tail _ hx =>
      cases hfa : f a with
      | none => rfl
      | some b =>
        rw [ih x hx hfx]
        rfl

theorem write_gauge_eq {T : Type} [FastDisplay T] (name : String)
    (g : Gauge T) (ht : 0 ≤ g.time) :
    write_gauge name g =
      some ((sortByKey (fun p => hash_attrs p.attributes) g.data_points).map
        (gauge_line name (Nat.repr g.time.toNat))) := by
  unfold write_gauge
  rw [show to_timestamp g.time = some (Nat.repr g.time.toNat) from by
    unfold to_timestamp; rw [if_neg (not_lt.mpr ht)]]
  rfl

theorem write_counter_isSome {T : Type} [FastDisplay T] (name : String)
    (s : Sum T) (hc : s.temporality = Temporality.cumulative)
    (ht : 0 ≤ s.time) : (write_counter name s).isSome = true := by
  unfold write_counter
  rw [if_pos hc,
    show to_timestamp s.time = some (Nat.repr s.time.toNat) from by
      unfold to_timestamp; rw [if_neg (not_lt.mpr ht)]]
  cases hm : s.is_monotonic <;> rfl

theorem write_metric_data_isSome {T : Type} [FastDisplay T] (name : String)
    (d : MetricData T) (hd : metric_data_ok d = true) :
    (write_metric_data name d).isSome = true := by
  cases d with
  | gauge g =>
    unfold metric_data_ok at hd
    rw [show write_metric_data name (MetricData.gauge g) = write_gauge name g
        from rfl,
      write_gauge_eq name g (of_decide_eq_true hd)]
    rfl
  | sum s =>
    unfold metric_data_ok at hd
    rw [Bool.and_eq_true] at hd
    exact write_counter_isSome name s (of_decide_eq_true hd.1)
      (of_decide_eq_true hd.2)
  | histogram h =>
    unfold metric_data_ok at hd
    rw [Bool.and_eq_true, Bool.and_eq_true] at hd
    rw [show write_metric_data name (MetricData.histogram h) =
        write_histogram name h from rfl,
      write_histogram_eq name h (of_decide_eq_true hd.1)
        (of_decide_eq_true hd.2.1) (of_decide_eq_true hd.2.2)]
    rfl
  | exponentialHistogram => cases hd

theorem write_values_isSome (name : String) (d : AggregatedMetrics)
    (hd : data_ok d = true) : (write_values name d).isSome = true := by
  cases d with
  | f64 md => exact write_metric_data_isSome name md hd
  | u64 md => exact write_metric_data_isSome name md hd
  | i64 md => exact write_metric_data_isSome name md hd

theorem metric_block_isSome (m : Metric) (hm : metric_ok m = true) :
    (metric_block m).isSome = true := by
  unfold metric_ok at hm
  unfold metric_block
  cases hg : get_type m.data with
  | none => rfl
  | some typ =>
    rw [hg] at hm
    obtain ⟨v, hv⟩ := Option.isSome_iff_exists.mp
      (write_values_isSome (metric_output_name m) m.data hm)
    rw [hv]
    rfl

theorem scope_block_isSome (sm : ScopeMetrics)
    (h : sm.metrics.all metric_ok = true) :
    (scope_block sm).isSome = true := by
  unfold scope_block
  obtain ⟨v, hv⟩ := Option.isSome_iff_exists.mp
    (mapOrNone_isSome metric_block _ (fun m hmem =>
      metric_block_isSome m
        (List.all_eq_true.mp h m
          ((mem_sortByKey (fun m : Metric => m.name) sm.metrics m).mp hmem))))
  rw [hv]
  rfl

/-- C1 (amended): rendering succeeds for every snapshot whose classified
metrics satisfy the writers' conditions — in particular every sum must be
cumulative with an epoch-or-later timestamp, because a non-cumulative sum
is NOT filtered by classification and trips `write_counter`'s assert —
while metrics rejected by classification (non-cumulative histograms,
exponential histograms) are skipped, whatever their contents, and never
cause a failure. -/
theorem c1_render_succeeds_of_snapshot_ok (rm : ResourceMetrics)
    (hok : snapshot_ok rm = true) :
    (write_as_openmetrics rm).isSome = true := by
  unfold snapshot_ok at hok
  unfold write_as_openmetrics render_lines
  obtain ⟨v, hv⟩ := Option.isSome_iff_exists.mp
    (mapOrNone_isSome scope_block _ (fun sm hmem =>
      scope_block_isSome sm
        (List.all_eq_true.mp hok sm
          ((mem_sortByKey (fun sm : ScopeMetrics => sm.scope_name)
            rm.scope_metrics sm).mp hmem))))
  rw [hv]
  rfl

/-- The non-cumulative monotonic sum payload of the C1 counterexample. -/
def sumC1 : Sum Nat :=
  { data_points := [{ value := 1, attributes := [] }],
    time := 1, temporality := Temporality.delta, is_monotonic := true }

/-- A snapshot whose only metric carries `sumC1`. -/
def snapC1 : ResourceMetrics :=
  { resource := [],
    scope_metrics := [
      { scope_name := "s",
        metrics := [
          { name := "bad", description := "", unit := "",
            data := AggregatedMetrics.u64 (MetricData.sum sumC1) }] }] }

/-- Counterexample to C1 as stated: a sum with non-cumulative temporality
is classified as a counter (not rejected and skipped like a non-cumulative
histogram), reaches `write_counter`, and its `assert_eq!` aborts the whole
render instead of skipping the metric. -/
theorem c1_counterexample_delta_sum_aborts :
    get_type (AggregatedMetrics.u64 (MetricData.sum sumC1)) = some "counter"
    ∧ write_as_openmetrics snapC1 = none :=
  ⟨by decide, by decide⟩

/-- A snapshot with one healthy gauge plus two unsupported metrics (a
non-cumulative histogram with pre-epoch timestamps, and an exponential
histogram): both are skipped and rendering still succeeds. -/
def snapC1w : ResourceMetrics :=
  { resource := [],
    scope_metrics := [
      { scope_name := "s",
        metrics := [
          { name := "good", description := "", unit := "",
            data := AggregatedMetrics.u64 (MetricData.gauge
              { data_points := [{ value := 7, attributes := [] }],
                time := 1 }) },
          { name := "skipped1", description := "", unit := "",
            data := AggregatedMetrics.u64 (MetricData.histogram
              { data_points := [], time := -3, start_time := -4,
                temporality := Temporality.delta }) },
          { name := "skipped2", description := "", unit := "",
            data := AggregatedMetrics.f64
              MetricData.exponentialHistogram }] }] }

/-- Witness for the amended C1: the snapshot with skipped unsupported
metrics satisfies the hypothesis and renders successfully. -/
theorem c1_render_succeeds_of_snapshot_ok_witness :
    snapshot_ok snapC1w = true
    ∧ (write_as_openmetrics snapC1w).isSome = true :=
  ⟨by decide, c1_render_succeeds_of_snapshot_ok snapC1w (by decide)⟩

/-! ## Pre-epoch timestamps panic (claim C10) -/

/-- A payload whose writer reads a pre-epoch (`< 0`) timestamp, making
`to_timestamp`'s `expect("Time went backwards")` panic. -/
def metric_data_neg_time {T : Type} : MetricData T → Bool
  | .gauge g => decide (g.time < 0)
  | .sum s => decide (s.time < 0)
  | .histogram h => decide (h.time < 0) || decide (h.start_time < 0)
  | .exponentialHistogram => false

/-- `metric_data_neg_time` across the numeric kinds. -/
def data_neg_time : AggregatedMetrics → Bool
  | .f64 d => metric_data_neg_time d
  | .u64 d => metric_data_neg_time d
  | .i64 d => metric_data_neg_time d

theorem write_metric_data_none {T : Type} [FastDisplay T] (name : String)
    (d : MetricData T) (hneg : metric_data_neg_time d = true) :
    write_metric_data name d = none := by
  cases d with
  | gauge g =>
    unfold metric_data_neg_time at hneg
    show write_gauge name g = none
    unfold write_gauge
    rw [show to_timestamp g.time = none from by
      unfold to_timestamp; rw [if_pos (of_decide_eq_true hneg)]]
    rfl
  | sum s =>
    unfold metric_data_neg_time at hneg
    show write_counter name s = none
    unfold write_counter
    by_cases hc : s.temporality = Temporality.cumulative
    · rw [if_pos hc, show to_timestamp s.time = none from by
        unfold to_timestamp; rw [if_pos (of_decide_eq_true hneg)]]
      rfl
    · rw [if_neg hc]
  | histogram h =>
    unfold metric_data_neg_time at hneg
    rw [Bool.or_eq_true] at hneg
    show write_histogram name h = none
    unfold write_histogram
    rcases hneg with hn | hn
    · rw [show to_timestamp h.time = none from by
        unfold to_timestamp; rw [if_pos (of_decide_eq_true hn)]]
      rfl
    · cases hts : to_timestamp h.time with
      | none => rfl
      | some ts =>
        rw [show to_timestamp h.start_time = none from by
          unfold to_timestamp; rw [if_pos (of_decide_eq_true hn)]]
        rfl
  | exponentialHistogram => cases hneg

theorem write_values_none (name : String) (d : AggregatedMetrics)
    (hneg : data_neg_time d = true) : write_values name d = none := by
  cases d with
  | f64 md => exact write_metric_data_none name md hneg
  | u64 md => exact write_metric_data_none name md hneg
  | i64 md => exact write_metric_data_none name md hneg

theorem metric_block_none (m : Metric)
    (hcls : (get_type m.data).isSome = true)
    (hneg : data_neg_time m.data = true) : metric_block m = none := by
  unfold metric_block
  obtain ⟨t, ht⟩ := Option.isSome_iff_exists.mp hcls
  rw [ht, write_values_none (metric_output_name m) m.data hneg]
  rfl

/-- C10 (amended): rendering panics — instead of producing output — for any
snapshot containing a metric that classification accepts and whose
timestamps (sample time, or a histogram's start time) precede the Unix
epoch; this contradicts the spec's "always produce legal output from any
input data".  (Metrics classification rejects are skipped before any
timestamp is read, so they do not panic — see the counterexample.) -/
theorem c10_pre_epoch_timestamp_panics (rm : ResourceMetrics)
    (hex : ∃ sm ∈ rm.scope_metrics, ∃ m ∈ sm.metrics,
      (get_type m.data).isSome = true ∧ data_neg_time m.data = true) :
    write_as_openmetrics rm = none := by
  obtain ⟨sm, hsm, m, hm, hcls, hneg⟩ := hex
  have hsb : scope_block sm = none := by
    unfold scope_block
    rw [mapOrNone_eq_none_of_mem metric_block _ m
      ((mem_sortByKey (fun m : Metric => m.name) sm.metrics m).mpr hm)
      (metric_block_none m hcls hneg)]
    rfl
  unfold write_as_openmetrics render_lines
  rw [mapOrNone_eq_none_of_mem scope_block _ sm
    ((mem_sortByKey (fun sm : ScopeMetrics => sm.scope_name)
      rm.scope_metrics sm).mpr hsm) hsb]
  rfl

/-- The skipped pre-epoch payload of the C10 counterexample: a
non-cumulative histogram whose timestamps precede the epoch. -/
def histC10 : Histogram Nat :=
  { data_points := [], time := -1, start_time := -1,
    temporality := Temporality.delta }

/-- A snapshot whose only metric carries `histC10`. -/
def snapC10skip : ResourceMetrics :=
  { resource := [],
    scope_metrics := [
      { scope_name := "s",
        metrics := [
          { name := "old", description := "", unit := "",
            data := AggregatedMetrics.u64 (MetricData.histogram
              histC10) }] }] }

/-- Counterexample to C10 as stated ("for any snapshot containing a metric
whose timestamp precedes the Unix epoch, the timestamp conversion panics"):
a metric with pre-epoch timestamps that classification rejects is skipped
before any timestamp is converted, and the snapshot renders successfully. -/
theorem c10_counterexample_skipped_metric_no_panic :
    metric_data_neg_time (MetricData.histogram histC10) = true
    ∧ write_as_openmetrics snapC10skip = some "# EOF\n" :=
  ⟨by decide, by decide⟩

/-- A snapshot whose only metric is a gauge with a pre-epoch sample time. -/
def snapC10gauge : ResourceMetrics :=
  { resource := [],
    scope_metrics := [
      { scope_name := "s",
        metrics := [
          { name := "old", description := "", unit := "",
            data := AggregatedMetrics.u64 (MetricData.gauge
              { data_points := [{ value := 7, attributes := [] }],
                time := -1 }) }] }] }

/-- Witness for the amended C10 at a gauge with pre-epoch sample time. -/
theorem c10_pre_epoch_timestamp_panics_witness :
    write_as_openmetrics snapC10gauge = none :=
  c10_pre_epoch_timestamp_panics snapC10gauge (by decide)

/-! ## Order invariance of rendering (claim C3)

Generic machinery: sorting a list by a key is unchanged by permuting the
input when the keys are pairwise distinct, and sorting runs in parallel
over two lists related elementwise by a key-preserving relation. -/

theorem sorted_perm_nodup_eq {α β : Type} [LinearOrder β] (key : α → β) :
    ∀ (l₁ l₂ : List α), l₁.Perm l₂ →
      List.Sorted (fun a b => key a ≤ key b) l₁ →
      List.Sorted (fun a b => key a ≤ key b) l₂ →
      (l₁.map key).Nodup → l₁ = l₂ := by
  intro l₁
  induction l₁ with
  | nil =>
    intro l₂ hp _ _ _
    exact (List.Perm.eq_nil hp.symm).symm
  | cons a t₁ ih =>
    intro l₂ hp hs₁ hs₂ hnd
    cases l₂ with
    | nil => exact absurd (List.Perm.eq_nil hp) (List.cons_ne_nil a t₁)
    | cons b t₂ =>
      have hab : a = b := by
        by_contra hne
        have hat₂ : a ∈ t₂ := by
          cases List.mem_cons.mp (hp.mem_iff.mp (List.mem_cons_self a t₁)) with
          | inl h => exact absurd h hne
          | inr h => exact h
        have hbt₁ : b ∈ t₁ := by
          cases List.mem_cons.mp
              (hp.symm.mem_iff.mp (List.mem_cons_self b t₂)) with
          | inl h => exact absurd h.symm hne
          | inr h => exact h
        have hkey : key a = key b :=
          le_antisymm (List.rel_of_sorted_cons hs₁ b hbt₁)
            (List.rel_of_sorted_cons hs₂ a hat₂)
        rw [List.map_cons, List.nodup_cons] at hnd
        exact hnd.1 (by rw [hkey]; exact List.mem_map_of_mem key hbt₁)
      subst hab
      have ht : t₁ = t₂ := by
        apply ih t₂ hp.cons_inv hs₁.of_cons hs₂.of_cons
        rw [List.map_cons, List.nodup_cons] at hnd
        exact hnd.2
      rw [ht]

theorem sortByKey_perm_eq {α β : Type} [LinearOrder β] (key : α → β)
    (l₁ l₂ : List α) (hp : l₁.Perm l₂) (hnd : (l₁.map key).Nodup) :
    sortByKey key l₁ = sortByKey key l₂ := by
  apply sorted_perm_nodup_eq key
  · exact (perm_sortByKey key l₁).trans (hp.trans (perm_sortByKey key l₂).symm)
  · exact sorted_sortByKey key l₁
  · exact sorted_sortByKey key l₂
  · exact ((perm_sortByKey key l₁).map key).nodup_iff.mpr hnd

theorem forall₂_orderedInsertKey {α β : Type} [LinearOrder β]
    (R : α → α → Prop) (key : α → β)
    (hkey : ∀ a b, R a b → key a = key b) (a b : α) (hab : R a b) :
    ∀ {l₁ l₂ : List α}, List.Forall₂ R l₁ l₂ →
      List.Forall₂ R (orderedInsertKey key a l₁) (orderedInsertKey key b l₂) := by
  intro l₁ l₂ h
  induction h with
  | nil => exact List.Forall₂.cons hab List.Forall₂.nil
  | cons hxy hl ih =>
    rename_i x y xs ys
    unfold orderedInsertKey
    rw [hkey a b hab, hkey x y hxy]
    by_cases hc : key b ≤ key y
    · rw [if_pos hc, if_pos hc]
      exact List.Forall₂.cons hab (List.Forall₂.cons hxy hl)
    · rw [if_neg hc, if_neg hc]
      exact List.Forall₂.cons hxy ih

theorem forall₂_sortByKey {α β : Type} [LinearOrder β]
    (R : α → α → Prop) (key : α → β)
    (hkey : ∀ a b, R a b → key a = key b) :
    ∀ {l₁ l₂ : List α}, List.Forall₂ R l₁ l₂ →
      List.Forall₂ R (sortByKey key l₁) (sortByKey key l₂) := by
  intro l₁ l₂ h
  induction h with
  | nil => exact List.Forall₂.nil
  | cons hxy hl ih =>
    unfold sortByKey
    exact forall₂_orderedInsertKey R key hkey _ _ hxy ih

/-- Permutation up to an elementwise relation: `l₂` is obtained from `l₁`
by reordering the elements and relating each by `R` (which itself permutes
the element's inner collections). -/
def PermUpTo {α : Type} (R : α → α → Prop) (l₁ l₂ : List α) : Prop :=
  ∃ l', l₁.Perm l' ∧ List.Forall₂ R l' l₂

theorem sortByKey_permUpTo {α β : Type} [LinearOrder β]
    (R : α → α → Prop) (key : α → β)
    (hkey : ∀ a b, R a b → key a = key b) (l₁ l₂ : List α)
    (hp : PermUpTo R l₁ l₂) (hnd : (l₁.map key).Nodup) :
    List.Forall₂ R (sortByKey key l₁) (sortByKey key l₂) := by
  obtain ⟨l', hperm, hfa⟩ := hp
  rw [sortByKey_perm_eq key l₁ l' hperm hnd]
  exact forall₂_sortByKey R key hkey hfa

theorem map_congr_forall₂ {α β : Type} {R : α → α → Prop} (F : α → β) :
    ∀ {l₁ l₂ : List α}, List.Forall₂ R l₁ l₂ →
      (∀ a b, a ∈ l₁ → R a b → F a = F b) → l₁.map F = l₂.map F := by
  intro l₁ l₂ h
  induction h with
  | nil => intro _; rfl
  | cons hxy hl ih =>
    rename_i x y xs ys
    intro hf
    simp only [List.map_cons]
    rw [hf x y (List.mem_cons_self _ _) hxy,
      ih (fun a b ha hab => hf a b (List.mem_cons_of_mem _ ha) hab)]

theorem mapOrNone_congr_forall₂ {α β : Type} {R : α → α → Prop}
    (f : α → Option β) :
    ∀ {l₁ l₂ : List α}, List.Forall₂ R l₁ l₂ →
      (∀ a b, a ∈ l₁ → R a b → f a = f b) →
      mapOrNone f l₁ = mapOrNone f l₂ := by
  intro l₁ l₂ h
  induction h with
  | nil => intro _; rfl
  | cons hxy hl ih =>
    rename_i x y xs ys
    intro hf
    unfold mapOrNone
    rw [hf x y (List.mem_cons_self _ _) hxy,
      ih (fun a b ha hab => hf a b (List.mem_cons_of_mem _ ha) hab)]

/-! ### The permutation relation on snapshots

`SnapPermR a b` says `b` is `a` with its unordered collections permuted:
the scope list, each scope's metric list, each metric's data-point list and
each point's attribute pair list may be reordered; all ordered content
(names, values, timestamps, bucket bound/count sequences) is unchanged. -/

/-- Points equal up to a permutation of their attribute pairs. -/
def PointR {T : Type} (p q : NumberDataPoint T) : Prop :=
  p.value = q.value ∧ p.attributes.Perm q.attributes

/-- Histogram points equal up to a permutation of their attribute pairs
(`bounds` and `bucket_counts` are ordered sequences and stay fixed). -/
def HPointR {T : Type} (p q : HistogramDataPoint T) : Prop :=
  p.count = q.count ∧ p.sum = q.sum ∧ p.min = q.min ∧ p.max = q.max
    ∧ p.bounds = q.bounds ∧ p.bucket_counts = q.bucket_counts
    ∧ p.attributes.Perm q.attributes

/-- Payloads equal up to permuting their data points (and each point's
attributes). -/
def DataR {T : Type} : MetricData T → MetricData T → Prop
  | .gauge g, .gauge g' =>
      g.time = g'.time ∧ PermUpTo PointR g.data_points g'.data_points
  | .sum s, .sum s' =>
      s.time = s'.time ∧ s.temporality = s'.temporality
        ∧ s.is_monotonic = s'.is_monotonic
        ∧ PermUpTo PointR s.data_points s'.data_points
  | .histogram h, .histogram h' =>
      h.time = h'.time ∧ h.start_time = h'.start_time
        ∧ h.temporality = h'.temporality
        ∧ PermUpTo HPointR h.data_points h'.data_points
  | .exponentialHistogram, .exponentialHistogram => True
  | _, _ => False

/-- `DataR` across the numeric kinds. -/
def AggR : AggregatedMetrics → AggregatedMetrics → Prop
  | .f64 d, .f64 d' => DataR d d'
  | .u64 d, .u64 d' => DataR d d'
  | .i64 d, .i64 d' => DataR d d'
  | _, _ => False

/-- Metrics equal up to `AggR` on the payload. -/
def MetricR (m n : Metric) : Prop :=
  m.name = n.name ∧ m.description = n.description ∧ m.unit = n.unit
    ∧ AggR m.data n.data

/-- Scopes equal up to permuting the metric list (and below). -/
def ScopeR (s t : ScopeMetrics) : Prop :=
  s.scope_name = t.scope_name ∧ PermUpTo MetricR s.metrics t.metrics

/-- Snapshots equal up to permuting every unordered collection. -/
def SnapPermR (a b : ResourceMetrics) : Prop :=
  a.resource = b.resource
    ∧ PermUpTo ScopeR a.scope_metrics b.scope_metrics

/-! ### Distinct sort keys

The amendment's hypothesis: at every level the sorting keys are pairwise
distinct — scope names, metric names within a scope, attribute-set
fingerprints of the points within a metric, attribute keys within a point.
(The counterexample below shows the claim fails without this.) -/

/-- Distinct fingerprints across points, distinct keys within each point. -/
def metric_data_distinct {T : Type} : MetricData T → Bool
  | .gauge g =>
      decide ((g.data_points.map (fun p => hash_attrs p.attributes)).Nodup)
        && g.data_points.all
          (fun p => decide ((p.attributes.map KeyValue.key).Nodup))
  | .sum s =>
      decide ((s.data_points.map (fun p => hash_attrs p.attributes)).Nodup)
        && s.data_points.all
          (fun p => decide ((p.attributes.map KeyValue.key).Nodup))
  | .histogram h =>
      decide ((h.data_points.map (fun p => hash_attrs p.attributes)).Nodup)
        && h.data_points.all
          (fun p => decide ((p.attributes.map KeyValue.key).Nodup))
  | .exponentialHistogram => true

/-- `metric_data_distinct` across the numeric kinds. -/
def data_distinct : AggregatedMetrics → Bool
  | .f64 d => metric_data_distinct d
  | .u64 d => metric_data_distinct d
  | .i64 d => metric_data_distinct d

/-- Distinct sort keys at every level of the snapshot. -/
def snap_distinct (rm : ResourceMetrics) : Bool :=
  decide ((rm.scope_metrics.map ScopeMetrics.scope_name).Nodup)
    && rm.scope_metrics.all (fun sm =>
        decide ((sm.metrics.map Metric.name).Nodup)
          && sm.metrics.all (fun m => data_distinct m.data))

/-! ### Congruence of the writers under the permutation relation -/

theorem hash_attrs_perm {a b : List KeyValue} (hp : a.Perm b) :
    hash_attrs a = hash_attrs b := by
  unfold hash_attrs
  suffices h : ∀ init, a.foldl (fun h kv => h ^^^ hash_kv kv) init
      = b.foldl (fun h kv => h ^^^ hash_kv kv) init from h 0
  induction hp with
  | nil => intro init; rfl
  | cons x _ ih =>
    intro init
    simp only [List.foldl_cons]
    exact ih (init ^^^ hash_kv x)
  | swap x y l =>
    intro init
    simp only [List.foldl_cons]
    have hx : init ^^^ hash_kv y ^^^ hash_kv x
        = init ^^^ hash_kv x ^^^ hash_kv y := by
      rw [Nat.xor_assoc, Nat.xor_assoc, Nat.xor_comm (hash_kv y) (hash_kv x)]
    rw [hx]
  | trans _ _ ih₁ ih₂ => intro init; exact (ih₁ init).trans (ih₂ init)

theorem write_attrs_tuple_perm (a b : List KeyValue) (hp : a.Perm b)
    (hnd : (a.map KeyValue.key).Nodup) :
    write_attrs_tuple a = write_attrs_tuple b := by
  unfold write_attrs_tuple
  rw [sortByKey_perm_eq (fun kv => kv.key) a b hp hnd]

theorem gauge_line_congr {T : Type} [FastDisplay T] (name ts : String)
    (p q : NumberDataPoint T) (h : PointR p q)
    (hnd : (p.attributes.map KeyValue.key).Nodup) :
    gauge_line name ts p = gauge_line name ts q := by
  obtain ⟨hv, ha⟩ := h
  unfold gauge_line
  rw [hv, write_attrs_tuple_perm _ _ ha hnd]

theorem counter_line_congr {T : Type} [FastDisplay T] (name ts : String)
    (p q : NumberDataPoint T) (h : PointR p q)
    (hnd : (p.attributes.map KeyValue.key).Nodup) :
    counter_line name ts p = counter_line name ts q := by
  obtain ⟨hv, ha⟩ := h
  unfold counter_line
  rw [hv, write_attrs_tuple_perm _ _ ha hnd]

theorem histogram_point_lines_congr {T : Type} [FastDisplay T]
    (name ts : String) (p q : HistogramDataPoint T) (h : HPointR p q)
    (hnd : (p.attributes.map KeyValue.key).Nodup) :
    histogram_point_lines name ts p = histogram_point_lines name ts q := by
  obtain ⟨hcount, hsum, _, _, hbounds, hcounts, hattrs⟩ := h
  unfold histogram_point_lines
  rw [hcount, hsum, hbounds, hcounts, write_attrs_tuple_perm _ _ hattrs hnd]

theorem write_gauge_congr {T : Type} [FastDisplay T] (name : String)
    (g g' : Gauge T) (ht : g.time = g'.time)
    (hperm : PermUpTo PointR g.data_points g'.data_points)
    (hhash : (g.data_points.map (fun p => hash_attrs p.attributes)).Nodup)
    (hkeys : ∀ p ∈ g.data_points, (p.attributes.map KeyValue.key).Nodup) :
    write_gauge name g = write_gauge name g' := by
  unfold write_gauge
  rw [ht]
  cases hts : to_timestamp g'.time with
  | none => rfl
  | some ts =>
    simp only [Option.bind_eq_bind, Option.some_bind]
    have hfa := sortByKey_permUpTo PointR (fun p => hash_attrs p.attributes)
      (fun p q h => hash_attrs_perm h.2) _ _ hperm hhash
    rw [map_congr_forall₂ (gauge_line name ts) hfa
      (fun p q hp hR => gauge_line_congr name ts p q hR
        (hkeys p ((mem_sortByKey (fun p : NumberDataPoint T =>
          hash_attrs p.attributes) g.data_points p).mp hp)))]

theorem write_counter_congr {T : Type} [FastDisplay T] (name : String)
    (s s' : Sum T) (ht : s.time = s'.time)
    (htemp : s.temporality = s'.temporality)
    (hmono : s.is_monotonic = s'.is_monotonic)
    (hperm : PermUpTo PointR s.data_points s'.data_points)
    (hhash : (s.data_points.map (fun p => hash_attrs p.attributes)).Nodup)
    (hkeys : ∀ p ∈ s.data_points, (p.attributes.map KeyValue.key).Nodup) :
    write_counter name s = write_counter name s' := by
  unfold write_counter
  rw [htemp, ht, hmono]
  by_cases hc : s'.temporality = Temporality.cumulative
  · rw [if_pos hc, if_pos hc]
    cases hts : to_timestamp s'.time with
    | none => rfl
    | some ts =>
      simp only [Option.bind_eq_bind, Option.some_bind]
      have hfa := sortByKey_permUpTo PointR (fun p => hash_attrs p.attributes)
        (fun p q h => hash_attrs_perm h.2) _ _ hperm hhash
      rw [map_congr_forall₂ (counter_line name ts) hfa
          (fun p q hp hR => counter_line_congr name ts p q hR
            (hkeys p ((mem_sortByKey (fun p : NumberDataPoint T =>
              hash_attrs p.attributes) s.data_points p).mp hp))),
        map_congr_forall₂ (gauge_line name ts) hfa
          (fun p q hp hR => gauge_line_congr name ts p q hR
            (hkeys p ((mem_sortByKey (fun p : NumberDataPoint T =>
              hash_attrs p.attributes) s.data_points p).mp hp)))]
  · rw [if_neg hc, if_neg hc]

theorem write_histogram_congr {T : Type} [FastDisplay T] (name : String)
    (h h' : Histogram T) (ht : h.time = h'.time)
    (hst : h.start_time = h'.start_time)
    (htemp : h.temporality = h'.temporality)
    (hperm : PermUpTo HPointR h.data_points h'.data_points)
    (hhash : (h.data_points.map (fun p => hash_attrs p.attributes)).Nodup)
    (hkeys : ∀ p ∈ h.data_points, (p.attributes.map KeyValue.key).Nodup) :
    write_histogram name h = write_histogram name h' := by
  unfold write_histogram
  rw [ht, hst, htemp]
  cases hts : to_timestamp h'.time with
  | none => rfl
  | some ts =>
    cases hcr : to_timestamp h'.start_time with
    | none => rfl
    | some created =>
      simp only [Option.bind_eq_bind, Option.some_bind]
      have hfa := sortByKey_permUpTo HPointR (fun p => hash_attrs p.attributes)
        (fun p q hr => hash_attrs_perm hr.2.2.2.2.2.2) _ _ hperm hhash
      rw [map_congr_forall₂ (histogram_point_lines name ts) hfa
        (fun p q hp hR => histogram_point_lines_congr name ts p q hR
          (hkeys p ((mem_sortByKey (fun p : HistogramDataPoint T =>
            hash_attrs p.attributes) h.data_points p).mp hp)))]

theorem get_metric_data_type_congr {T : Type} (d d' : MetricData T)
    (hR : DataR d d') :
    get_metric_data_type d = get_metric_data_type d' := by
  cases d <;> cases d' <;> try exact hR.elim
  · rfl
  · obtain ⟨_, _, hmono, _⟩ := hR
    simp only [get_metric_data_type]
    rw [hmono]
  · obtain ⟨_, _, htemp, _⟩ := hR
    simp only [get_metric_data_type]
    rw [htemp]
  · rfl

theorem get_type_congr (d d' : AggregatedMetrics) (hR : AggR d d') :
    get_type d = get_type d' := by
  cases d <;> cases d' <;> try exact hR.elim
  all_goals exact get_metric_data_type_congr _ _ hR

theorem write_metric_data_congr {T : Type} [FastDisplay T] (name : String)
    (d d' : MetricData T) (hR : DataR d d')
    (hdist : metric_data_distinct d = true) :
    write_metric_data name d = write_metric_data name d' := by
  cases d <;> cases d' <;> try exact hR.elim
  · obtain ⟨ht, hperm⟩ := hR
    unfold metric_data_distinct at hdist
    rw [Bool.and_eq_true] at hdist
    exact write_gauge_congr name _ _ ht hperm (of_decide_eq_true hdist.1)
      (fun p hp => of_decide_eq_true (List.all_eq_true.mp hdist.2 p hp))
  · obtain ⟨ht, htemp, hmono, hperm⟩ := hR
    unfold metric_data_distinct at hdist
    rw [Bool.and_eq_true] at hdist
    exact write_counter_congr name _ _ ht htemp hmono hperm
      (of_decide_eq_true hdist.1)
      (fun p hp => of_decide_eq_true (List.all_eq_true.mp hdist.2 p hp))
  · obtain ⟨ht, hst, htemp, hperm⟩ := hR
    unfold metric_data_distinct at hdist
    rw [Bool.and_eq_true] at hdist
    exact write_histogram_congr name _ _ ht hst htemp hperm
      (of_decide_eq_true hdist.1)
      (fun p hp => of_decide_eq_true (List.all_eq_true.mp hdist.2 p hp))
  · rfl

theorem write_values_congr (name : String) (d d' : AggregatedMetrics)
    (hR : AggR d d') (hdist : data_distinct d = true) :
    write_values name d = write_values name d' := by
  cases d <;> cases d' <;> try exact hR.elim
  all_goals exact write_metric_data_congr name _ _ hR hdist

theorem metric_block_congr (m n : Metric) (hR : MetricR m n)
    (hdist : data_distinct m.data = true) :
    metric_block m = metric_block n := by
  obtain ⟨hname, hdesc, hunit, hdata⟩ := hR
  have hmon : metric_output_name m = metric_output_name n := by
    unfold metric_output_name
    rw [hname, hunit]
  unfold metric_block
  rw [get_type_congr m.data n.data hdata]
  cases hg : get_type n.data with
  | none => rfl
  | some typ =>
    rw [hmon, hunit, hdesc,
      write_values_congr (metric_output_name n) m.data n.data hdata hdist]

theorem scope_block_congr (s t : ScopeMetrics) (hR : ScopeR s t)
    (hnd : (s.metrics.map Metric.name).Nodup)
    (hdist : ∀ m ∈ s.metrics, data_distinct m.data = true) :
    scope_block s = scope_block t := by
  obtain ⟨_, hperm⟩ := hR
  unfold scope_block
  have hfa := sortByKey_permUpTo MetricR (fun m : Metric => m.name)
    (fun m n h => h.1) _ _ hperm hnd
  rw [mapOrNone_congr_forall₂ metric_block hfa
    (fun m n hm hR2 => metric_block_congr m n hR2
      (hdist m ((mem_sortByKey (fun m : Metric => m.name) s.metrics m).mp hm)))]

/-- C3 (amended): rendering is invariant under permutation of the input
collections — scopes, metrics within a scope, data points within a metric,
attribute pairs within a point — provided the sorting keys are pairwise
distinct at each level: scope names, metric names within a scope, the
points' attribute-set fingerprints within a metric (and attribute keys
unique within a point, the data model's own invariant).  Without the
distinctness proviso the claim is false (see the counterexample): sorting
breaks ties by input order, so duplicate keys leak input order into the
output. -/
theorem c3_order_invariance (a b : ResourceMetrics) (hR : SnapPermR a b)
    (hdist : snap_distinct a = true) :
    write_as_openmetrics a = write_as_openmetrics b := by
  obtain ⟨_, hperm⟩ := hR
  unfold snap_distinct at hdist
  rw [Bool.and_eq_true] at hdist
  unfold write_as_openmetrics render_lines
  have hfa := sortByKey_permUpTo ScopeR
    (fun sm : ScopeMetrics => sm.scope_name)
    (fun s t h => h.1) _ _ hperm (of_decide_eq_true hdist.1)
  rw [mapOrNone_congr_forall₂ scope_block hfa
    (fun s t hs hR2 => by
      have hmem := (mem_sortByKey (fun sm : ScopeMetrics => sm.scope_name)
        a.scope_metrics s).mp hs
      have h2 := List.all_eq_true.mp hdist.2 s hmem
      rw [Bool.and_eq_true] at h2
      exact scope_block_congr s t hR2 (of_decide_eq_true h2.1)
        (fun m hm => List.all_eq_true.mp h2.2 m hm))]

/-! ### Reflexivity of the permutation relation, counterexample, witness -/

theorem forall₂_refl_of {α : Type} (R : α → α → Prop) (h : ∀ x, R x x) :
    ∀ l, List.Forall₂ R l l := by
  intro l
  induction l with
  | nil => exact List.Forall₂.nil
  | cons a l ih => exact List.Forall₂.cons (h a) ih

theorem PermUpTo_refl {α : Type} (R : α → α → Prop) (h : ∀ x, R x x)
    (l : List α) : PermUpTo R l l :=
  ⟨l, List.Perm.refl l, forall₂_refl_of R h l⟩

theorem PointR_refl {T : Type} : ∀ p : NumberDataPoint T, PointR p p :=
  fun _ => ⟨rfl, List.Perm.refl _⟩

theorem HPointR_refl {T : Type} : ∀ p : HistogramDataPoint T, HPointR p p :=
  fun _ => ⟨rfl, rfl, rfl, rfl, rfl, rfl, List.Perm.refl _⟩

theorem DataR_refl {T : Type} : ∀ d : MetricData T, DataR d d := by
  intro d
  cases d with
  | gauge g => exact ⟨rfl, PermUpTo_refl PointR PointR_refl g.data_points⟩
  | sum s =>
    exact ⟨rfl, rfl, rfl, PermUpTo_refl PointR PointR_refl s.data_points⟩
  | histogram h =>
    exact ⟨rfl, rfl, rfl, PermUpTo_refl HPointR HPointR_refl h.data_points⟩
  | exponentialHistogram => exact trivial

theorem AggR_refl : ∀ d : AggregatedMetrics, AggR d d := by
  intro d
  cases d <;> exact DataR_refl _

theorem MetricR_refl : ∀ m : Metric, MetricR m m :=
  fun m => ⟨rfl, rfl, rfl, AggR_refl m.data⟩

theorem ScopeR_refl : ∀ s : ScopeMetrics, ScopeR s s :=
  fun s => ⟨rfl, PermUpTo_refl MetricR MetricR_refl s.metrics⟩

/-- Two gauge points with the same attribute set and different values. -/
def pointV7 : NumberDataPoint Nat := { value := 7, attributes := [⟨"kk", "v1"⟩] }

/-- The second point sharing `pointV7`'s attribute set. -/
def pointV8 : NumberDataPoint Nat := { value := 8, attributes := [⟨"kk", "v1"⟩] }

/-- A snapshot whose gauge holds `[pointV7, pointV8]`. -/
def snapDupA : ResourceMetrics :=
  { resource := [],
    scope_metrics := [
      { scope_name := "s",
        metrics := [
          { name := "g", description := "", unit := "",
            data := AggregatedMetrics.u64 (MetricData.gauge
              { data_points := [pointV7, pointV8], time := 1 }) }] }] }

/-- `snapDupA` with the two data points swapped. -/
def snapDupB : ResourceMetrics :=
  { resource := [],
    scope_metrics := [
      { scope_name := "s",
        metrics := [
          { name := "g", description := "", unit := "",
            data := AggregatedMetrics.u64 (MetricData.gauge
              { data_points := [pointV8, pointV7], time := 1 }) }] }] }

/-- Counterexample to C3 as stated: `snapDupB` is `snapDupA` with its data
points permuted (an instance of the snapshot permutation relation), yet the
rendered texts differ byte-wise — the two points share an attribute set, so
their fingerprints tie and the documented-stable `sort_by_cached_key` keeps
them in input order. -/
theorem c3_counterexample_duplicate_fingerprints :
    SnapPermR snapDupA snapDupB
    ∧ write_as_openmetrics snapDupA ≠ write_as_openmetrics snapDupB := by
  constructor
  · refine ⟨rfl, snapDupA.scope_metrics, List.Perm.refl _, ?_⟩
    refine List.Forall₂.cons ?_ List.Forall₂.nil
    refine ⟨rfl, ?_⟩
    refine ⟨_, List.Perm.refl _, List.Forall₂.cons ?_ List.Forall₂.nil⟩
    refine ⟨rfl, rfl, rfl, rfl, ?_⟩
    exact ⟨[pointV8, pointV7], List.Perm.swap pointV8 pointV7 [],
      List.Forall₂.cons (PointR_refl _)
        (List.Forall₂.cons (PointR_refl _) List.Forall₂.nil)⟩
  · decide

/-- A scope with no metrics, named `a`. -/
def scopeX : ScopeMetrics := { scope_name := "a", metrics := [] }

/-- A scope named `b` holding one gauge with a two-attribute point. -/
def scopeYA : ScopeMetrics :=
  { scope_name := "b",
    metrics := [
      { name := "g", description := "", unit := "",
        data := AggregatedMetrics.u64 (MetricData.gauge
          { data_points := [
              { value := 1, attributes := [⟨"a", "1"⟩, ⟨"b", "2"⟩] }],
            time := 1 }) }] }

/-- `scopeYA` with the point's attribute pairs swapped. -/
def scopeYB : ScopeMetrics :=
  { scope_name := "b",
    metrics := [
      { name := "g", description := "", unit := "",
        data := AggregatedMetrics.u64 (MetricData.gauge
          { data_points := [
              { value := 1, attributes := [⟨"b", "2"⟩, ⟨"a", "1"⟩] }],
            time := 1 }) }] }

/-- Snapshot with scopes `[scopeX, scopeYA]`. -/
def snapOrdA : ResourceMetrics :=
  { resource := [], scope_metrics := [scopeX, scopeYA] }

/-- `snapOrdA` with the scopes swapped and the attributes permuted. -/
def snapOrdB : ResourceMetrics :=
  { resource := [], scope_metrics := [scopeYB, scopeX] }

/-- Witness for the amended C3: swapping the scope order and permuting a
point's attribute pairs leaves the rendered text unchanged when all sort
keys are distinct. -/
theorem c3_order_invariance_witness :
    write_as_openmetrics snapOrdA = write_as_openmetrics snapOrdB := by
  have hscope : ScopeR scopeYA scopeYB := by
    refine ⟨rfl, ?_⟩
    refine ⟨scopeYA.metrics, List.Perm.refl _,
      List.Forall₂.cons ?_ List.Forall₂.nil⟩
    refine ⟨rfl, rfl, rfl, rfl, ?_⟩
    refine ⟨_, List.Perm.refl _, List.Forall₂.cons ?_ List.Forall₂.nil⟩
    exact ⟨rfl, List.Perm.swap (⟨"b", "2"⟩ : KeyValue) (⟨"a", "1"⟩ : KeyValue) []⟩
  refine c3_order_invariance snapOrdA snapOrdB ⟨rfl, ?_⟩ (by decide)
  refine ⟨[scopeYA, scopeX], List.Perm.swap scopeYA scopeX [],
    List.Forall₂.cons hscope
      (List.Forall₂.cons (ScopeR_refl scopeX) List.Forall₂.nil)⟩

end Ottotom

